import Mathlib

/-!
# HPX scatter collectives

A shallow embedding of `libs/full/collectives/include/hpx/collectives/scatter.hpp`:
the `scatter_tag` specialisation of `communication_operation` (the step function and
the finalizer run by the communicator), the flat operations `scatter_from` and
`scatter_to` with their overloads, and `scatter_hierarchically`.

Conventions.
* `std::size_t` values are natural numbers; `static_cast<std::size_t>(-1)` is `2 ^ 64 - 1`.
* `int` values are integers; a narrowing conversion is written `to_int`, the conversion
  of an `int` operand to `std::size_t` is written `to_size_t`.
* `HPX_MOVE(x)` consumed by a callee leaves `x` in its moved-from state, given per type
  by `Movable.moved_from`: an arithmetic value is unchanged, a `std::vector` is empty.
* Calls to collaborators (`agas::get_locality_id`, `agas::get_num_localities`,
  `create_communicator`, `hpx::async` of the get/set actions) are recorded, in order,
  in the `trace` of the state that every operation threads through.
-/

namespace hpx

/-- The value of `static_cast<std::size_t>(-1)`, the "unspecified" site index. -/
def size_t_minus_one : Nat := 2 ^ 64 - 1

/-- The error codes used by the sources under study (`hpx::error`). -/
inductive error where
  | no_success
  | bad_component_type
  | duplicate_component_address
  | unknown_component_address
  | bad_parameter
  deriving DecidableEq, Repr

/-- What the holder of an `hpx::future<T>` observes. -/
inductive future (T : Type) where
  /-- Made by `hpx::make_exceptional_future(HPX_GET_EXCEPTION(e, func, msg))`. -/
  | exceptional (e : error) (func : String) (msg : String)
  /-- The remote action has run its finalizer and delivered a value. -/
  | ready (value : T)
  /-- The producer has not checked in yet: the future is not ready. -/
  | pending
  /-- The communicator refused the request (rendezvous-protocol fault). -/
  | protocol_fault
  /-- The finalizer indexed the slot outside of its bounds (`data[which]`). -/
  | out_of_bounds
  deriving DecidableEq, Repr

/-- Why a call of a function does not return. -/
inductive failure where
  /-- An `HPX_ASSERT` fired: the process is terminated. -/
  | assertion_failed
  /-- Undefined behaviour: division by zero, an element access or iterator range out of
  bounds, signed overflow, or control flowing off the end of the function. -/
  | undefined_behaviour
  /-- A C++ exception left the function (`std::length_error`, or the exception stored
  in a future whose `get()` was called). -/
  | exception
  /-- The function waits in `future::get()` for a value that is not there yet. -/
  | blocked
  /-- A loop did not finish within the fuel it was given. -/
  | out_of_fuel
  deriving DecidableEq, Repr

/-- How a call of a function can end. -/
inductive result (α : Type) where
  | returned (a : α)
  | failed (f : failure)
  deriving DecidableEq, Repr

/-- A client-side handle of a communicator object, identified by its global id. -/
structure communicator where
  gid : Nat
  deriving DecidableEq, Repr

/-- The calls a collective makes to its collaborators. -/
inductive Event (D : Type) where
  | get_locality_id
  | get_num_localities
  | create_communicator (basename : String) (num_sites this_site generation root_site : Nat)
  | async_get (c : communicator) (which generation : Nat)
  | async_set (c : communicator) (which generation : Nat) (t : List D)
  deriving DecidableEq, Repr

/-- Whether an event is a call that leaves the locality: the creation (or lookup) of a
communicator, or the dispatch of a get/set action. -/
def Event.remote {D : Type} : Event D → Bool
  | .get_locality_id => false
  | .get_num_localities => false
  | .create_communicator _ _ _ _ _ => true
  | .async_get _ _ _ => true
  | .async_set _ _ _ _ => true

/-- Whether an event is the dispatch of a get or a set action on a communicator. -/
def Event.dispatch {D : Type} : Event D → Bool
  | .async_get _ _ _ => true
  | .async_set _ _ _ _ => true
  | _ => false

/-- Modelled from the spec: the server side of a communicator, which is not part of the
sources. Per generation it owns one data slot; `none` is the slot nobody has produced
yet. `num_sites` is the number of participants it was created for. -/
structure communicator_server (D : Type) where
  num_sites : Nat
  slot : Nat → Option (List D)

/-- Modelled from the spec: `Communicator::handle_bool`, which is not part of the
sources; the finalizer "must return that site's individual share", so the conversion
hands the element back unchanged. -/
def handle_bool {D : Type} (d : D) : D := d

/-- The move construction of a value of type `D`: `moved_from d` is the state in which
`d` is left once `HPX_MOVE(d)` has been consumed. -/
class Movable (D : Type) where
  moved_from : D → D

/-- An arithmetic type is copied by a move: the source keeps its value. -/
instance : Movable Nat := ⟨fun n => n⟩

/-- The move constructor of `std::vector` leaves its source empty. -/
instance {D : Type} : Movable (List D) := ⟨fun _ => []⟩

/-- Modelled from the spec: `communicator_server::handle_data`, which is not part of the
sources (section 4.1). A site index outside `[0, num_sites)` is a rendezvous-protocol
fault. Otherwise the step function, when there is one, writes the caller's contribution
into the slot of `generation`; the finalizer runs once the producer has checked in, that
is once the slot has been produced, and yields the share of site `which`; until then the
caller's future is pending. The finalizer receives the slot by reference (`auto& data`):
what it leaves there is the slot afterwards. The operation name is not modelled. -/
def communicator_server.handle_data {D : Type} (self : communicator_server D)
    (which generation : Nat) (step : Option (List D → Nat → List D))
    (finalizer : List D → Bool → Nat → Option (List D × D)) :
    communicator_server D × future D :=
  if which < self.num_sites then
    let produced : Option (List D) :=
      match step with
      | none => self.slot generation
      | some f => some (f ((self.slot generation).getD []) which)
    match produced with
    | none =>
      (⟨self.num_sites, fun g => if g = generation then produced else self.slot g⟩,
        future.pending)
    | some data =>
      match finalizer data false which with
      | some r =>
        (⟨self.num_sites, fun g => if g = generation then some r.1 else self.slot g⟩,
          future.ready r.2)
      | none =>
        (⟨self.num_sites, fun g => if g = generation then produced else self.slot g⟩,
          future.out_of_bounds)
  else (self, future.protocol_fault)

namespace communication_operation

/-- The step function of `set`: `[&t](auto& data, std::size_t) { data = HPX_MOVE(t); }`. -/
def set_step {D : Type} (t : List D) : List D → Nat → List D :=
  fun _data _which => t

/-- The finalizer of `get`:
`[](auto& data, bool&, std::size_t which) { return handle_bool(HPX_MOVE(data[which])); }`.
It yields the slot as it leaves it, with `data[which]` moved from, and the share. An
index outside of `data` has no defined value. -/
def get_finalizer {D : Type} [Movable D] : List D → Bool → Nat → Option (List D × D) :=
  fun data _ which =>
    match data[which]? with
    | some x => some (data.set which (Movable.moved_from x), handle_bool x)
    | none => none

/-- The finalizer of `set`:
`[](auto& data, bool&, std::size_t which) { return handle_bool(HPX_MOVE(data[which])); }`.
It yields the slot as it leaves it, with `data[which]` moved from, and the share. An
index outside of `data` has no defined value. -/
def set_finalizer {D : Type} [Movable D] : List D → Bool → Nat → Option (List D × D) :=
  fun data _ which =>
    match data[which]? with
    | some x => some (data.set which (Movable.moved_from x), handle_bool x)
    | none => none

/-- The member `communication_operation<Communicator, scatter_tag>::get`: no step
function, the finalizer moves `data[which]` out. -/
def get {D : Type} [Movable D] (communicator : communicator_server D) (which generation : Nat) :
    communicator_server D × future D :=
  communicator.handle_data which generation none get_finalizer

/-- The member `communication_operation<Communicator, scatter_tag>::set`: the step
function replaces the slot by `t`, the finalizer moves `data[which]` out. -/
def set {D : Type} [Movable D] (communicator : communicator_server D) (which generation : Nat)
    (t : List D) : communicator_server D × future D :=
  communicator.handle_data which generation (some (set_step t)) set_finalizer

end communication_operation

/-- The collaborators and constants that `scatter.hpp` uses but does not define. -/
structure Env where
  /-- The value of `agas::get_locality_id()`. -/
  locality_id : Nat
  /-- The value of `agas::get_num_localities(hpx::launch::sync)`. -/
  num_localities : Nat
  /-- Whether `HPX_ASSERT` is compiled in (debug build). -/
  assertions : Bool
  /-- The value of a default-constructed `generation_arg`. -/
  generation_default : Nat
  /-- The value of a default-constructed `num_sites_arg`. -/
  num_sites_default : Nat
  /-- The communicator that `create_communicator(basename, num_sites, this_site,
  generation, root_site)` hands back. -/
  create_communicator : String → Nat → Nat → Nat → Nat → communicator

/-- The communicators known to the runtime together with the calls made so far. -/
structure State (D : Type) where
  servers : communicator → communicator_server D
  trace : List (Event D)

/-- Record a call to a collaborator. -/
def State.log {D : Type} (st : State D) (e : Event D) : State D :=
  ⟨st.servers, st.trace ++ [e]⟩

/-- The calls of a trace that leave the locality. -/
def remote_calls {D : Type} (trace : List (Event D)) : List (Event D) :=
  trace.filter Event.remote

/-- The get/set dispatches of a trace. -/
def dispatches {D : Type} (trace : List (Event D)) : List (Event D) :=
  trace.filter Event.dispatch

/-- Modelled from the spec: `hpx::async(communication_get_direct_action(), c, which,
generation)`; the action is not part of the sources, it is routed to
`communication_operation::get` on the server object of `c` (section 6). -/
def async_get {D : Type} [Movable D] (st : State D) (c : communicator) (which generation : Nat) :
    State D × future D :=
  let r := communication_operation.get (st.servers c) which generation
  (⟨fun d => if d = c then r.1 else st.servers d,
    st.trace ++ [Event.async_get c which generation]⟩, r.2)

/-- Modelled from the spec: `hpx::async(communication_set_direct_action(), c, which,
generation, t)`; the action is not part of the sources, it is routed to
`communication_operation::set` on the server object of `c` (section 6). -/
def async_set {D : Type} [Movable D] (st : State D) (c : communicator) (which generation : Nat)
    (t : List D) : State D × future D :=
  let r := communication_operation.set (st.servers c) which generation t
  (⟨fun d => if d = c then r.1 else st.servers d,
    st.trace ++ [Event.async_set c which generation t]⟩, r.2)

namespace collectives

/-- The first statement of `scatter_from`, `scatter_to` and `scatter_hierarchically`:
`if (this_site == static_cast<std::size_t>(-1)) this_site = agas::get_locality_id();`.
Returns the state and the value of `this_site` afterwards. -/
def resolve_this_site {D : Type} (env : Env) (st : State D) (this_site : Nat) :
    State D × Nat :=
  if this_site = size_t_minus_one then (st.log Event.get_locality_id, env.locality_id)
  else (st, this_site)

/-- The function `scatter_from(communicator fid, this_site_arg this_site,
generation_arg generation)`. -/
def scatter_from {D : Type} [Movable D] (env : Env) (st : State D) (fid : communicator)
    (this_site generation : Nat) : State D × future D :=
  let r := resolve_this_site env st this_site
  if generation = 0 then
    (r.1, future.exceptional error.bad_parameter "hpx::collectives::scatter_from"
      "the generation number shouldn't be zero")
  else
    -- fid.then(hpx::launch::sync, scatter_from_data)
    async_get r.1 fid r.2 generation

/-- The overload `scatter_from(communicator fid, generation_arg generation,
this_site_arg this_site)`. -/
def scatter_from_generation_first {D : Type} [Movable D] (env : Env) (st : State D)
    (fid : communicator) (generation this_site : Nat) : State D × future D :=
  scatter_from env st fid this_site generation

/-- The overload `scatter_from(char const* basename, this_site_arg this_site,
generation_arg generation, root_site_arg root_site)`. -/
def scatter_from_basename {D : Type} [Movable D] (env : Env) (st : State D) (basename : String)
    (this_site generation root_site : Nat) : State D × result (future D) :=
  -- HPX_ASSERT(this_site != root_site);
  if env.assertions = true ∧ this_site = root_site then
    (st, result.failed failure.assertion_failed)
  else
    let st1 := st.log (Event.create_communicator basename env.num_sites_default
      this_site generation root_site)
    let fid := env.create_communicator basename env.num_sites_default this_site
      generation root_site
    let r := scatter_from env st1 fid this_site env.generation_default
    (r.1, result.returned r.2)

/-- The function `scatter_to(communicator fid, std::vector<T>&& local_result,
this_site_arg this_site, generation_arg generation)`. -/
def scatter_to {D : Type} [Movable D] (env : Env) (st : State D) (fid : communicator)
    (local_result : List D) (this_site generation : Nat) : State D × future D :=
  let r := resolve_this_site env st this_site
  if generation = 0 then
    (r.1, future.exceptional error.bad_parameter "hpx::collectives::scatter_to"
      "the generation number shouldn't be zero")
  else
    -- fid.then(hpx::launch::sync, scatter_to_data)
    async_set r.1 fid r.2 generation local_result

/-- The overload `scatter_to(communicator fid, std::vector<T>&& local_result,
generation_arg generation, this_site_arg this_site)`. -/
def scatter_to_generation_first {D : Type} [Movable D] (env : Env) (st : State D)
    (fid : communicator) (local_result : List D) (generation this_site : Nat) :
    State D × future D :=
  scatter_to env st fid local_result this_site generation

/-- The overload `scatter_to(char const* basename, std::vector<T>&& local_result,
num_sites_arg num_sites, this_site_arg this_site, generation_arg generation)`. -/
def scatter_to_basename {D : Type} [Movable D] (env : Env) (st : State D) (basename : String)
    (local_result : List D) (num_sites this_site generation : Nat) :
    State D × result (future D) :=
  let st1 := st.log (Event.create_communicator basename num_sites this_site generation
    this_site)
  let fid := env.create_communicator basename num_sites this_site generation this_site
  let r := scatter_to env st1 fid local_result this_site env.generation_default
  (r.1, result.returned r.2)

/-- Narrowing of an unsigned value to `int` (two's complement, 32 bits). -/
def to_int (n : Nat) : Int :=
  if n % 2 ^ 32 < 2 ^ 31 then ((n % 2 ^ 32 : Nat) : Int)
  else ((n % 2 ^ 32 : Nat) : Int) - 2 ^ 32

/-- Conversion of an `int` operand to `std::size_t` (modulo `2 ^ 64`). -/
def to_size_t (i : Int) : Nat := (i % 2 ^ 64).toNat

/-- The expression `a % b` for `a` of type `std::size_t` and `b` of type `int`: `b` is
converted to `std::size_t`; a zero divisor is undefined behaviour. -/
def size_t_mod (a : Nat) (b : Int) : result Nat :=
  if to_size_t b = 0 then result.failed failure.undefined_behaviour
  else result.returned (a % to_size_t b)

/-- The loop `while (x % arity == 0 && x != 0) { x /= arity; }` on `int` values, which
`scatter_hierarchically` runs on `min_sites` and on `adjusted_site`. One unit of fuel is
spent per evaluation of the loop condition; `x % 0` is undefined behaviour. The
quotient of two `int` values is taken as it is: it leaves the range of `int` only for
`INT_MIN / -1`. -/
def divide_while_divisible (arity : Int) : Nat → Int → result Int
  | 0, _ => result.failed failure.out_of_fuel
  | fuel + 1, x =>
    if arity = 0 then result.failed failure.undefined_behaviour
    else if x.tmod arity = 0 ∧ x ≠ 0 then divide_while_divisible arity fuel (x.tdiv arity)
    else result.returned x

/-- The computation of `min_sites` in `scatter_hierarchically`, from the number of
localities: the loop, then `if (min_sites == 1) { min_sites = arity; }`. -/
def compute_min_sites (arity : Int) (fuel : Nat) (num_localities : Nat) : result Int :=
  match divide_while_divisible arity fuel (to_int num_localities) with
  | result.returned m => result.returned (if m = 1 then arity else m)
  | result.failed f => result.failed f

/-- The construction `std::vector<T>(v.begin() + first, v.begin() + last)` with `int`
offsets; offsets that overflow `int` or do not delimit a range of `v` are undefined
behaviour. -/
def slice {T : Type} (v : List T) (first last : Int) : result (List T) :=
  if 0 ≤ first ∧ first ≤ last ∧ last ≤ (v.length : Int) ∧ last < 2 ^ 31 then
    result.returned ((v.drop first.toNat).take (last - first).toNat)
  else result.failed failure.undefined_behaviour

/-- The body of the grouping loop for the indices `is`:
`grouped[i] = std::vector<T>(v.begin() + i*step_size, v.begin() + (i+1)*step_size);`. -/
def slices {T : Type} (v : List T) (step_size : Int) : List Nat → result (List (List T))
  | [] => result.returned []
  | i :: is =>
    match slice v ((i : Int) * step_size) (((i : Int) + 1) * step_size) with
    | result.failed f => result.failed f
    | result.returned g =>
      match slices v step_size is with
      | result.failed f => result.failed f
      | result.returned gs => result.returned (g :: gs)

/-- The grouping of the root path: `std::vector<std::vector<T>> grouped(arity);`
(a negative `arity` converts to a size beyond `max_size()` and throws),
`int step_size = v.size()/arity;` (division by zero is undefined behaviour), then the
loop over `i = 0 .. arity-1`. -/
def group_by_arity {T : Type} (arity : Int) (v : List T) : result (List (List T)) :=
  if arity < 0 then result.failed failure.exception
  else if arity = 0 then result.failed failure.undefined_behaviour
  else slices v (to_int (v.length / to_size_t arity)) (List.range arity.toNat)

/-- The grouping of the relay path: `std::vector<std::vector<T>> grouped_intermediate(arity);`,
`int step_size = v.size()/arity;`, then for `j = 0 .. arity-1`
`grouped_intermediate[j] = std::vector<T>(arity, v[0]);`. -/
def group_first_element {T : Type} (arity : Int) (v : List T) : result (List (List T)) :=
  if arity < 0 then result.failed failure.exception
  else if arity = 0 then result.failed failure.undefined_behaviour
  else
    match v with
    | [] => result.failed failure.undefined_behaviour
    | x :: _ => result.returned (List.replicate arity.toNat (List.replicate arity.toNat x))

/-- What a communicator of the hierarchical protocol stores for one site: a single
value (`T`) or a group of values (`std::vector<T>`). -/
inductive value (T : Type) where
  | elem (t : T)
  | group (l : List T)
  deriving DecidableEq, Repr

/-- A single value is left as the move of `T` leaves it, a group (`std::vector<T>`) is
left empty. -/
instance {T : Type} [Movable T] : Movable (value T) :=
  ⟨fun x => match x with
    | value.elem t => value.elem (Movable.moved_from t)
    | value.group _ => value.group []⟩

/-- The view of a future as `hpx::future<T>`. A slot that holds groups cannot be read
as single values: the typed access of the communicator fails. -/
def elem_future {T : Type} : future (value T) → future T
  | future.exceptional e f m => future.exceptional e f m
  | future.ready (value.elem t) => future.ready t
  | future.ready (value.group _) => future.protocol_fault
  | future.pending => future.pending
  | future.protocol_fault => future.protocol_fault
  | future.out_of_bounds => future.out_of_bounds

/-- The view of a future as `hpx::future<std::vector<T>>`. A slot that holds single
values cannot be read as groups: the typed access of the communicator fails. -/
def group_future {T : Type} : future (value T) → future (List T)
  | future.exceptional e f m => future.exceptional e f m
  | future.ready (value.group l) => future.ready l
  | future.ready (value.elem _) => future.protocol_fault
  | future.pending => future.pending
  | future.protocol_fault => future.protocol_fault
  | future.out_of_bounds => future.out_of_bounds

/-- The call `f.get()`: the value of a ready future; an exceptional future rethrows; a
future that is not ready makes the caller wait. -/
def future_get {T : Type} : future T → result T
  | future.ready v => result.returned v
  | future.exceptional _ _ _ => result.failed failure.exception
  | future.protocol_fault => result.failed failure.exception
  | future.pending => result.failed failure.blocked
  | future.out_of_bounds => result.failed failure.undefined_behaviour

/-- The statement of the last level, in the root and in the relay path:
`return scatter_to(current_communicator, intermediary_node.get(), this_site_arg(0),
generation);`. -/
def last_level {T : Type} [Movable T] (env : Env) (generation : Nat) (st : State (value T))
    (intermediary_node : future (List T)) (current_communicator : communicator) :
    State (value T) × result (future T) :=
  match future_get intermediary_node with
  | result.failed f => (st, result.failed f)
  | result.returned v =>
    let r := scatter_to env st current_communicator (v.map value.elem) 0 generation
    (r.1, result.returned (elem_future r.2))

/-- The loop `for (int i = 1; i < communicators.size(); i++)` of the root path, on the
communicators from index `i` on. When there is none at all the loop body never runs and
control flows off the end of the function. -/
def root_loop {T : Type} [Movable T] (env : Env) (arity : Int) (this_site generation : Nat) :
    State (value T) → future (List T) → List (communicator × Int) →
    State (value T) × result (future T)
  | st, _, [] => (st, result.failed failure.undefined_behaviour)
  | st, intermediary_node, [c] => last_level env generation st intermediary_node c.1
  | st, intermediary_node, c :: d :: rest =>
    match future_get intermediary_node with
    | result.failed f => (st, result.failed f)
    | result.returned intermediate_result =>
      match group_by_arity arity intermediate_result with
      | result.failed f => (st, result.failed f)
      | result.returned grouped_intermediate =>
        match size_t_mod this_site arity with
        | result.failed f => (st, result.failed f)
        | result.returned s =>
          let r := scatter_to env st c.1 (grouped_intermediate.map value.group) s generation
          root_loop env arity this_site generation r.1 (group_future r.2) (d :: rest)

/-- The loop `for (int i = 1; i < communicators.size(); i++)` of the relay path, on the
communicators from index `i` on. -/
def relay_loop {T : Type} [Movable T] (env : Env) (arity : Int) (generation : Nat) :
    State (value T) → future (List T) → List (communicator × Int) →
    State (value T) × result (future T)
  | st, _, [] => (st, result.failed failure.undefined_behaviour)
  | st, intermediary_node, [c] => last_level env generation st intermediary_node c.1
  | st, intermediary_node, c :: d :: rest =>
    match future_get intermediary_node with
    | result.failed f => (st, result.failed f)
    | result.returned intermediate_result =>
      match group_first_element arity intermediate_result with
      | result.failed f => (st, result.failed f)
      | result.returned grouped_intermediate =>
        let r := scatter_to env st c.1 (grouped_intermediate.map value.group) 0 generation
        relay_loop env arity generation r.1 (group_future r.2) (d :: rest)

/-- The branches of `scatter_hierarchically` once `min_sites` is known and the list of
communicators is not empty: root, leaf and relay. -/
def scatter_paths {T : Type} [Movable T] (env : Env) (fuel : Nat) (st : State (value T))
    (current_communicator : communicator) (rest : List (communicator × Int))
    (local_result : List T) (this_site generation root_site : Nat) (arity min_sites : Int) :
    State (value T) × result (future T) :=
  if this_site = root_site then
    -- Root Scatter To
    match group_by_arity arity local_result with
    | result.failed f => (st, result.failed f)
    | result.returned grouped =>
      let r := scatter_to env st current_communicator (grouped.map value.group) 0 generation
      root_loop env arity this_site generation r.1 (group_future r.2) rest
  else
    match size_t_mod this_site min_sites with
    | result.failed f => (st, result.failed f)
    | result.returned m =>
      if m ≠ 0 then
        let r := scatter_from env st current_communicator m generation
        (r.1, result.returned (elem_future r.2))
      else
        -- int adjusted_site = this_site; while (...) adjusted_site /= arity;
        match divide_while_divisible arity fuel (to_int this_site) with
        | result.failed f => (st, result.failed f)
        | result.returned adjusted_site =>
          let r := scatter_from env st current_communicator
            (to_size_t (adjusted_site.tmod arity)) generation
          relay_loop env arity generation r.1 (group_future r.2) rest

/-- The function `scatter_hierarchically(communicators, local_result, this_site,
generation, root_site, arity)`. `fuel` bounds the number of iterations of each of its
two division loops. -/
def scatter_hierarchically {T : Type} [Movable T] (env : Env) (fuel : Nat) (st : State (value T))
    (communicators : List (communicator × Int)) (local_result : List T)
    (this_site generation root_site : Nat) (arity : Int) :
    State (value T) × result (future T) :=
  let r := resolve_this_site env st this_site
  if generation = 0 then
    (r.1, result.returned (future.exceptional error.bad_parameter
      "hpx::collectives::scatter_to" "the generation number shouldn't be zero"))
  else
    let st1 := r.1.log Event.get_num_localities
    match compute_min_sites arity fuel env.num_localities with
    | result.failed f => (st1, result.failed f)
    | result.returned min_sites =>
      match communicators with
      | [] => (st1, result.failed failure.undefined_behaviour)
      | c :: rest =>
        scatter_paths env fuel st1 c.1 rest local_result r.2 generation root_site arity
          min_sites

/-- Modelled from the spec: the communicator at one node of the tree, named by its level
and by the site that produces into it. The collaborator that builds the tree is not part
of the sources. -/
def tree_communicator (level owner : Nat) : communicator := ⟨8 * level + owner⟩

/-- Modelled from the spec: the hierarchical tree descriptor of each site for 8 sites
and arity 2, "an ordered sequence of (Communicator, level-site-index) pairs describing
the path from root to the calling site's leaf position". The collaborator that builds it
is not part of the sources. Site 0 produces at the levels 0, 1 and 2; site 4 consumes at
level 0 and produces at the levels 1 and 2; the sites 2 and 6 consume at level 1 and
produce at level 2; an odd site consumes at level 2 from the even site before it. -/
def tree_descriptor (site : Nat) : List (communicator × Int) :=
  if site = 0 then
    [(tree_communicator 0 0, 0), (tree_communicator 1 0, 0), (tree_communicator 2 0, 0)]
  else if site = 4 then
    [(tree_communicator 0 0, 1), (tree_communicator 1 4, 0), (tree_communicator 2 4, 0)]
  else if site % 2 = 0 then
    [(tree_communicator 1 (site - 2), 1), (tree_communicator 2 site, 0)]
  else [(tree_communicator 2 (site - 1), 1)]

/-- A concrete environment, used to evaluate the code: site `site` of a run with
`num_sites` localities, in which `num_sites_arg()` and `generation_arg()` default to
`static_cast<std::size_t>(-1)` and `create_communicator` always hands back the
communicator 0; `assertions` tells whether `HPX_ASSERT` is compiled in. -/
def site_env (num_sites site : Nat) (assertions : Bool) : Env :=
  ⟨site, num_sites, assertions, size_t_minus_one, size_t_minus_one, fun _ _ _ _ _ => ⟨0⟩⟩

/-- The state in which no communicator has been used yet; every communicator is created
for `num_sites` participants. -/
def fresh_state (D : Type) (num_sites : Nat) : State D :=
  ⟨fun _ => ⟨num_sites, fun _ => none⟩, []⟩

/-- The call that site `site` makes in the hierarchical scenario of section 8 of the
spec (8 sites, arity 2, root site 0), with generation 1; only the root supplies values.
The two division loops get 64 units of fuel, more than an `int` can use up. -/
def hierarchical_call {T : Type} [Movable T] (v : List T) (st : State (value T)) (site : Nat) :
    State (value T) × result (future T) :=
  scatter_hierarchically (site_env 8 site true) 64 st (tree_descriptor site)
    (if site = 0 then v else []) site 1 0 2

/-- The sites make their hierarchical call one after the other, in the given order. -/
def hierarchical_run {T : Type} [Movable T] (v : List T) :
    State (value T) → List Nat → State (value T) × List (result (future T))
  | st, [] => (st, [])
  | st, site :: sites =>
    let r := hierarchical_call v st site
    let rs := hierarchical_run v r.1 sites
    (rs.1, r.2 :: rs.2)

/-- The call that site `site` makes in the flat round trip of section 8 of the spec on
the communicator `c`: site 0 is the root and calls `scatter_to` with `v`, every other
site calls `scatter_from`; generation 1. -/
def flat_call {T : Type} [Movable T] (c : communicator) (v : List T) (st : State T) (site : Nat) :
    State T × future T :=
  if site = 0 then scatter_to (site_env v.length site true) st c v site 1
  else scatter_from (site_env v.length site true) st c site 1

/-- The sites make their flat call one after the other, in the given order. -/
def flat_run {T : Type} [Movable T] (c : communicator) (v : List T) :
    State T → List Nat → State T × List (future T)
  | st, [] => (st, [])
  | st, site :: sites =>
    let r := flat_call c v st site
    let rs := flat_run c v r.1 sites
    (rs.1, r.2 :: rs.2)

end collectives

/-!
# The runtime support component

A shallow embedding of `src/runtime/components/server/runtime_support.cpp`: the registry
of component factories (`components_`) with its lookup, loading and release operations,
and the life cycle `run`, `stop`, `stopped`. Log statements (`LRT_`) are not modelled.
-/

namespace components

namespace server

/-- How a call that may raise an HPX exception ends. -/
inductive outcome (α : Type) where
  | returned (a : α)
  /-- The effect of `HPX_THROW_EXCEPTION(e, func, msg)`. -/
  | thrown (e : error) (func : String) (msg : String)
  deriving DecidableEq, Repr

/-- The interface `component_factory_base`, which the sources use but do not declare:
the values its member functions return. Global ids and constructor arguments are
numbers. -/
structure component_factory_base where
  /-- The value of `get_component_type(prefix, agas_client)`. -/
  get_component_type : Int
  /-- The value of `get_factory_properties()`. -/
  get_factory_properties : Int
  /-- The value of `may_unload()`. -/
  may_unload : Bool
  /-- The value of `create(count)`. -/
  create : Nat → Nat
  /-- The value of `create_one(arg0)`. -/
  create_one : Nat → Nat

/-- The library handle `boost::plugin::dll`, made from the path of the library and the
name of the component. -/
structure dll where
  lib : String
  name : String
  deriving DecidableEq, Repr

/-- The type `component_factory_type`: the pair of a `boost::shared_ptr` to the factory,
`none` when it is null, and the module the factory comes from. -/
abbrev component_factory_type := Option component_factory_base × dll

/-- The type `component_map_type`, a `std::map` from component types to
`component_factory_type`: its entries in the order of iteration. -/
abbrev component_map_type := List (Int × component_factory_type)

/-- The member `find` of the map: `none` is `end()`. -/
def map_find : component_map_type → Int → Option component_factory_type
  | [], _ => none
  | (k, v) :: rest, key => if k = key then some v else map_find rest key

/-- The place of a new entry in the order of the keys. -/
def ordered_insert (key : Int) (v : component_factory_type) :
    component_map_type → component_map_type
  | [] => [(key, v)]
  | (k, w) :: rest =>
    if key < k then (key, v) :: (k, w) :: rest else (k, w) :: ordered_insert key v rest

/-- The member `insert` of the map: the map afterwards and the `second` of the pair it
returns, which is `false`, with the map left as it is, when the key is already there. -/
def map_insert (m : component_map_type) (key : Int) (v : component_factory_type) :
    component_map_type × Bool :=
  match map_find m key with
  | some _ => (m, false)
  | none => (ordered_insert key v m, true)

/-- The data members of `runtime_support` that the modelled functions use. -/
structure runtime_support where
  stopped_ : Bool
  terminated_ : Bool
  components_ : component_map_type

/-- The functions, macros and constants that `runtime_support.cpp` uses but does not
define. -/
structure Framework where
  /-- The function `components::get_component_type_name`. -/
  get_component_type_name : Int → String
  /-- The function `components::get_derived_type`. -/
  get_derived_type : Int → Int
  /-- The function `components::get_base_type`. -/
  get_base_type : Int → Int
  /-- The macro `HPX_SHARED_LIB_EXTENSION`. -/
  shared_lib_extension : String
  /-- The function `boost::filesystem::extension`. -/
  extension : String → String
  /-- The macro `HPX_MANGLE_COMPONENT_NAME_STR`. -/
  mangle_component_name : String → String
  /-- The function `hpx::util::create_path`. -/
  create_path : String → String
  /-- The macro `HPX_DEFAULT_COMPONENT_PATH`. -/
  default_component_path : String
  /-- The operator `/=` of `boost::filesystem::path`. -/
  path_append : String → String → String
  /-- Opening the module `boost::plugin::dll d(lib, component)` and creating the factory
  for the instance through `boost::plugin::plugin_factory`, with the settings of the ini
  files; `none` when one of these steps throws. -/
  create_factory : String → String → String → Option (component_factory_base × dll)
  /-- Whether `BOOST_ASSERT` is compiled in. -/
  assertions : Bool

/-- The function `runtime_support::factory_properties`. -/
def factory_properties (fw : Framework) (self : runtime_support) (type : Int) :
    runtime_support × outcome Int :=
  match map_find self.components_ type with
  | some (some factory, _) => (self, outcome.returned factory.get_factory_properties)
  | _ =>
    (self, outcome.thrown error.bad_component_type "runtime_support::factory_properties"
      ("attempt to query factory properties for components invalid/unknown type: "
        ++ fw.get_component_type_name type))

/-- The function `runtime_support::create_component`. -/
def create_component (fw : Framework) (self : runtime_support) (type : Int) (count : Nat) :
    runtime_support × outcome Nat :=
  match map_find self.components_ type with
  | some (some factory, _) => (self, outcome.returned (factory.create count))
  | _ =>
    (self, outcome.thrown error.bad_component_type "runtime_support::create_component"
      ("attempt to create component instance of invalid/unknown type: "
        ++ fw.get_component_type_name type))

/-- The function `runtime_support::create_one_component`. -/
def create_one_component (fw : Framework) (self : runtime_support) (type : Int)
    (arg0 : Nat) : runtime_support × outcome Nat :=
  match map_find self.components_ type with
  | none =>
    (self, outcome.thrown error.bad_component_type "runtime_support::create_component"
      ("attempt to create component instance of invalid/unknown type: "
        ++ fw.get_component_type_name type ++ " (component not found in map)"))
  | some (none, _) =>
    (self, outcome.thrown error.bad_component_type "runtime_support::create_component"
      ("attempt to create component instance of invalid/unknown type: "
        ++ fw.get_component_type_name type ++ " (map entry is NULL)"))
  | some (some factory, _) => (self, outcome.returned (factory.create_one arg0))

/-- What `tidy` does to the entries of the registry. -/
inductive tidy_event where
  /-- The call `keep_alive()` on the module of the entry with key `type`. -/
  | keep_alive (type : Int) (d : dll)
  /-- The call `reset()` on the factory pointer of the entry with key `type`. -/
  | reset (type : Int)
  deriving DecidableEq, Repr

/-- The call `components_.erase(curr)` of `tidy`: the entry the iterator points at, which
is the entry of its key, leaves the map. -/
def map_erase (m : component_map_type) (key : Int) : component_map_type :=
  m.filter fun e => decide (e.1 ≠ key)

/-- The loop of `tidy`: `it` runs over the entries that were in the map when the loop
started, `m` is the map as it is now. The result is the map that is left and what was
done to the entries. -/
def tidy_loop : List (Int × component_factory_type) → component_map_type →
    component_map_type × List tidy_event
  | [], m => (m, [])
  | curr :: it, m =>
    let done : List tidy_event :=
      match curr.2.1 with
      | some factory =>
        (if factory.may_unload = false then [tidy_event.keep_alive curr.1 curr.2.2] else [])
          ++ [tidy_event.reset curr.1]
      | none => []
    let r := tidy_loop it (map_erase m curr.1)
    (r.1, done ++ r.2)

/-- The function `runtime_support::tidy`. -/
def tidy (self : runtime_support) : runtime_support × List tidy_event :=
  let r := tidy_loop self.components_ self.components_
  (⟨self.stopped_, self.terminated_, r.1⟩, r.2)

/-- The function `runtime_support::load_component`: the object afterwards and the value
returned. -/
def load_component (fw : Framework) (self : runtime_support) (instance_name component : String)
    (lib : String) (_isdefault : Bool) : runtime_support × Bool :=
  if fw.extension lib ≠ fw.shared_lib_extension then (self, false)
  else
    match fw.create_factory lib component instance_name with
    | none => (self, false)
    | some (factory, d) =>
      let t := factory.get_component_type
      if t = 0 then (self, false)
      else
        let data : component_factory_type := (some factory, d)
        let p0 := map_insert self.components_ t data
        let p :=
          if fw.get_derived_type t ≠ 0 then
            let p1 := if p0.2 = true then map_insert p0.1 (fw.get_derived_type t) data else p0
            if p1.2 = true then map_insert p1.1 (fw.get_base_type t) data else p1
          else p0
        if p.2 = false then (⟨self.stopped_, self.terminated_, p.1⟩, false)
        else (⟨self.stopped_, self.terminated_, p.1⟩, true)

/-- A section of the ini data (`util::section`), as far as `load_components` reads it:
its name and its entries. -/
structure util_section where
  name : String
  entries : List (String × String)
  deriving DecidableEq, Repr

/-- The member `has_entry` of a section. -/
def util_section.has_entry (s : util_section) (key : String) : Bool :=
  s.entries.any fun e => e.1 = key

/-- The member `get_entry` of a section, called for keys that are there. -/
def util_section.get_entry (s : util_section) (key : String) : String :=
  match s.entries.find? fun e => e.1 = key with
  | some e => e.2
  | none => ""

/-- The function `boost::algorithm::to_lower` in the classic locale. -/
def to_lower (s : String) : String := String.mk (s.data.map Char.toLower)

/-- A call of `load_component` made by `load_components`. -/
structure load_call where
  instance_name : String
  component : String
  lib : String
  isdefault : Bool
  deriving DecidableEq, Repr

/-- The name under which `load_components` loads the component of a section. -/
def component_name (fw : Framework) (i : util_section) : String :=
  if i.has_entry "name" = true then fw.mangle_component_name (i.get_entry "name")
  else fw.mangle_component_name i.name

/-- The test of `load_components` for a disabled section. -/
def disabled (i : util_section) : Bool :=
  if i.has_entry "enabled" = true then
    let tmp := to_lower (i.get_entry "enabled")
    decide (tmp = "no" ∨ tmp = "false" ∨ tmp = "0")
  else false

/-- The body of the loop of `load_components` for the section `i`: the object afterwards
and the calls of `load_component` it made. `create_path` and the path operations are
taken as total functions of the framework; they are defined outside this file. -/
def load_section (fw : Framework) (self : runtime_support) (i : util_section) :
    runtime_support × List load_call :=
  let instance_name := i.name
  let component := component_name fw i
  if disabled i = true then (self, [])
  else
    let isdefault : Bool :=
      if i.has_entry "isdefault" = true then
        decide (to_lower (i.get_entry "isdefault") = "true")
      else false
    let lib :=
      if i.has_entry "path" = true then fw.create_path (i.get_entry "path")
      else fw.create_path fw.default_component_path
    let r1 := load_component fw self instance_name component lib isdefault
    if r1.2 = false then
      let lib2 := fw.path_append lib (fw.create_path (component ++ fw.shared_lib_extension))
      let r2 := load_component fw r1.1 instance_name component lib2 isdefault
      (r2.1, [⟨instance_name, component, lib, isdefault⟩,
        ⟨instance_name, component, lib2, isdefault⟩])
    else (r1.1, [⟨instance_name, component, lib, isdefault⟩])

/-- The loop of `load_components` over the sections. -/
def load_sections (fw : Framework) :
    runtime_support → List util_section → runtime_support × List load_call
  | self, [] => (self, [])
  | self, i :: rest =>
    let r := load_section fw self i
    let rs := load_sections fw r.1 rest
    (rs.1, r.2 ++ rs.2)

/-- The function `runtime_support::load_components(ini, prefix, agas_client)`;
`hpx_components` holds the sections below `[hpx.components]`, `none` when the ini data
has no such section. -/
def load_components (fw : Framework) (self : runtime_support)
    (hpx_components : Option (List util_section)) : runtime_support × List load_call :=
  match hpx_components with
  | none => (self, [])
  | some s => load_sections fw self s

/-- The thread manager and the timer as `stop` sees them. `W` is the state of the
scheduler and of the clock; times are counted in whole ticks. -/
structure Applier (W : Type) where
  /-- The value of `tm.get_thread_count()`. -/
  get_thread_count : W → Int
  /-- Whether `threads::get_self_ptr()` is not null. -/
  has_self : W → Bool
  /-- The effect of `self->yield(threads::pending)`: the scheduler works on the
  remaining threads, time passes. -/
  yield : W → W
  /-- The effect of `tm.cleanup_terminated()`. -/
  cleanup_terminated : W → W
  /-- The effect of `tm.abort_all_suspended_threads()`. -/
  abort_all_suspended_threads : W → W
  /-- The value of `t.elapsed()` for the timer `t` of `stop`. -/
  elapsed : W → Int
  /-- The value of `appl.address_is_local(respond_to.get_gid(), addr)`. -/
  address_is_local : Nat → Bool

/-- What `stop` and `stopped` do besides changing the two flags. -/
inductive stop_event where
  | cleanup_threads
  | abort_all_suspended_threads
  /-- The local response `hpx::applier::apply_l<action_type>(addr)`. -/
  | apply_l (respond_to : Nat)
  /-- The remote response `hpx::applier::apply_r_sync<action_type>(addr, respond_to)`. -/
  | apply_r_sync (respond_to : Nat)
  /-- The call `wait_condition_.notify_all()`. -/
  | notify_wait_condition
  /-- The call `stop_condition_.wait(l)`. -/
  | wait_stop_condition
  /-- The call `stop_condition_.notify_all()`. -/
  | notify_stop_condition
  deriving DecidableEq, Repr

/-- The function `cleanup_threads(tm, l)`: `BOOST_ASSERT(0 != self)`, a yield with the
lock released, then `tm.cleanup_terminated()`. Without the assertion a null `self` is
dereferenced. -/
def cleanup_threads {W : Type} (fw : Framework) (app : Applier W) (w : W) : result W :=
  if app.has_self w = false then
    if fw.assertions = true then result.failed failure.assertion_failed
    else result.failed failure.undefined_behaviour
  else result.returned (app.cleanup_terminated (app.yield w))

/-- The first loop of `stop`: `while (tm.get_thread_count() > 1)` with the test of the
timeout after each clean-up. Yields the state of the scheduler afterwards, the events,
and the value of `timed_out`. One unit of fuel is spent per test of the loop
condition. -/
def drain_loop {W : Type} (fw : Framework) (app : Applier W) (timeout start_time : Int) :
    Nat → W → W × List stop_event × result Bool
  | 0, w => (w, [], result.failed failure.out_of_fuel)
  | fuel + 1, w =>
    if app.get_thread_count w > 1 then
      match cleanup_threads fw app w with
      | result.failed f => (w, [], result.failed f)
      | result.returned w1 =>
        if timeout ≠ -1 ∧ timeout < app.elapsed w1 - start_time then
          (w1, [stop_event.cleanup_threads], result.returned true)
        else
          let r := drain_loop fw app timeout start_time fuel w1
          (r.1, stop_event.cleanup_threads :: r.2.1, r.2.2)
    else (w, [], result.returned false)

/-- The second loop of `stop`, entered when `timed_out` is set:
`while (tm.get_thread_count() > 1)` aborting all suspended threads and cleaning up. -/
def abort_loop {W : Type} (fw : Framework) (app : Applier W) :
    Nat → W → W × List stop_event × result Unit
  | 0, w => (w, [], result.failed failure.out_of_fuel)
  | fuel + 1, w =>
    if app.get_thread_count w > 1 then
      let w1 := app.abort_all_suspended_threads w
      match cleanup_threads fw app w1 with
      | result.failed f => (w1, [stop_event.abort_all_suspended_threads], result.failed f)
      | result.returned w2 =>
        let r := abort_loop fw app fuel w2
        (r.1, stop_event.abort_all_suspended_threads :: stop_event.cleanup_threads :: r.2.1,
          r.2.2)
    else (w, [], result.returned ())

/-- The response of `stop` to `respond_to`; `none` is an invalid id. -/
def respond {W : Type} (app : Applier W) : Option Nat → List stop_event
  | none => []
  | some id =>
    if app.address_is_local id = true then [stop_event.apply_l id]
    else [stop_event.apply_r_sync id]

/-- The constructor of `runtime_support` (with `HPX_AGAS_VERSION > 0x10`, where it loads
no components). -/
def runtime_support.construct : runtime_support := ⟨false, false, []⟩

/-- The function `runtime_support::run`. -/
def run (self : runtime_support) : runtime_support := ⟨false, false, self.components_⟩

/-- The function `runtime_support::stop(timeout, respond_to)`: the object and the
scheduler afterwards, the events, and how the call ends. The final wait on
`stop_condition_` is an event; `fuel` bounds each of the two loops. -/
def stop {W : Type} (fw : Framework) (app : Applier W) (fuel : Nat) (self : runtime_support)
    (w : W) (timeout : Int) (respond_to : Option Nat) :
    runtime_support × W × List stop_event × result Unit :=
  if self.stopped_ = false then
    -- BOOST_ASSERT(!terminated_);
    if fw.assertions = true ∧ self.terminated_ = true then
      (self, w, [], result.failed failure.assertion_failed)
    else
      let self1 : runtime_support := ⟨true, self.terminated_, self.components_⟩
      let start_time := app.elapsed w
      let d := drain_loop fw app timeout start_time fuel w
      match d.2.2 with
      | result.failed f => (self1, d.1, d.2.1, result.failed f)
      | result.returned timed_out =>
        let a : W × List stop_event × result Unit :=
          if timed_out = true then abort_loop fw app fuel d.1
          else (d.1, [], result.returned ())
        match a.2.2 with
        | result.failed f => (self1, a.1, d.2.1 ++ a.2.1, result.failed f)
        | result.returned _ =>
          (self1, a.1,
            d.2.1 ++ a.2.1 ++ respond app respond_to
              ++ [stop_event.notify_wait_condition, stop_event.wait_stop_condition],
            result.returned ())
  else (self, w, [], result.returned ())

/-- The function `runtime_support::stopped`. -/
def stopped (self : runtime_support) : runtime_support × List stop_event :=
  if self.terminated_ = false then
    (⟨self.stopped_, true, self.components_⟩, [stop_event.notify_stop_condition])
  else (self, [])

/-- A call of one of the three life-cycle functions. -/
inductive lifecycle_call where
  | run
  | stop (timeout : Int) (respond_to : Option Nat)
  | stopped
  deriving DecidableEq, Repr

/-- One life-cycle call on the object and the scheduler. -/
def lifecycle_step {W : Type} (fw : Framework) (app : Applier W) (fuel : Nat)
    (s : runtime_support × W) : lifecycle_call → result (runtime_support × W)
  | lifecycle_call.run => result.returned (run s.1, s.2)
  | lifecycle_call.stop timeout respond_to =>
    let r := stop fw app fuel s.1 s.2 timeout respond_to
    match r.2.2.2 with
    | result.failed f => result.failed f
    | result.returned _ => result.returned (r.1, r.2.1)
  | lifecycle_call.stopped => result.returned ((stopped s.1).1, s.2)

/-- A sequence of life-cycle calls, one after the other; it ends with the first call
that does not return. -/
def lifecycle {W : Type} (fw : Framework) (app : Applier W) (fuel : Nat) :
    runtime_support × W → List lifecycle_call → result (runtime_support × W)
  | s, [] => result.returned s
  | s, c :: cs =>
    match lifecycle_step fw app fuel s c with
    | result.failed f => result.failed f
    | result.returned s1 => lifecycle fw app fuel s1 cs

/-- Whether, in a sequence of calls starting with the flag `stopped_` at `b`, every call
of `stopped` finds `stopped_` set. -/
def stopped_after_stop : Bool → List lifecycle_call → Bool
  | _, [] => true
  | _, lifecycle_call.run :: cs => stopped_after_stop false cs
  | _, lifecycle_call.stop _ _ :: cs => stopped_after_stop true cs
  | b, lifecycle_call.stopped :: cs => b && stopped_after_stop b cs

/-- A concrete framework, used to evaluate the code. The derived type of a component type
is its quotient by 65536 and the base type its remainder; libraries end in `.so`; the
type of a factory is chosen by the name of its instance: 0 for `refused`, 131075 (derived
type 2, base type 3) for `derived`, 2 for `plain`, 7 otherwise, and no factory at all for
`broken`; only the factory of `pinned` may not be unloaded. -/
def sample_framework (assertions : Bool) : Framework :=
  ⟨fun _ => "component", fun t => t / 65536, fun t => t % 65536, ".so",
    fun lib => if (".so".data).isSuffixOf lib.data then ".so" else "",
    fun name => "hpx_component_" ++ name, fun p => p, "/usr/lib/hpx",
    fun lib name => lib ++ "/" ++ name,
    fun lib component instance_name =>
      if instance_name = "broken" then none
      else some
        (⟨if instance_name = "refused" then 0
            else if instance_name = "derived" then 131075
            else if instance_name = "plain" then 2 else 7,
          1, instance_name != "pinned", fun count => count, fun arg0 => arg0⟩,
          ⟨lib, component⟩),
    assertions⟩

/-- A concrete scheduler, used to evaluate the code: its state is the pair of the number
of threads and the time; a yield lets one thread finish and one tick pass, an abort
leaves one thread. -/
def sample_applier : Applier (Int × Int) :=
  ⟨fun w => w.1, fun _ => true, fun w => (w.1 - 1, w.2 + 1), fun w => w,
    fun w => (1, w.2), fun w => w.2, fun id => id == 0⟩

end server

end components

namespace collectives

/-! # Theorems -/

/-! ## Auxiliary facts -/

theorem resolve_this_site_of_ne {D : Type} (env : Env) (st : State D) (s : Nat)
    (h : s ≠ size_t_minus_one) : resolve_this_site env st s = (st, s) := by
  simp [resolve_this_site, h]

theorem resolve_this_site_sentinel {D : Type} (env : Env) (st : State D) :
    resolve_this_site env st size_t_minus_one
      = (st.log Event.get_locality_id, env.locality_id) := by
  simp [resolve_this_site]

theorem resolve_this_site_servers {D : Type} (env : Env) (st : State D) (s : Nat) :
    (resolve_this_site env st s).1.servers = st.servers := by
  unfold resolve_this_site
  split <;> rfl

theorem resolve_this_site_remote_calls {D : Type} (env : Env) (st : State D) (s : Nat) :
    remote_calls (resolve_this_site env st s).1.trace = remote_calls st.trace := by
  unfold resolve_this_site
  split <;> simp [remote_calls, State.log, Event.remote]

theorem resolve_this_site_dispatches {D : Type} (env : Env) (st : State D) (s : Nat) :
    dispatches (resolve_this_site env st s).1.trace = dispatches st.trace := by
  unfold resolve_this_site
  split <;> simp [dispatches, State.log, Event.dispatch]

theorem resolve_this_site_index {D : Type} (env : Env) (st : State D) (s : Nat) :
    (resolve_this_site env st s).2 = if s = size_t_minus_one then env.locality_id else s := by
  unfold resolve_this_site
  split <;> rfl

/-! ## The server side of the flat operations -/

theorem set_num_sites {D : Type} [Movable D] (srv : communicator_server D) (w g : Nat)
    (t : List D) :
    (communication_operation.set srv w g t).1.num_sites = srv.num_sites := by
  simp only [communication_operation.set, communicator_server.handle_data]
  split
  · split <;> rfl
  · rfl

theorem set_slot_same {D : Type} [Movable D] (srv : communicator_server D) (w g : Nat)
    (t : List D) (hw : w < srv.num_sites) :
    (communication_operation.set srv w g t).1.slot g
      = some (match t[w]? with
          | some x => t.set w (Movable.moved_from x)
          | none => t) := by
  simp only [communication_operation.set, communicator_server.handle_data, if_pos hw,
    communication_operation.set_step, communication_operation.set_finalizer]
  cases h : t[w]? with
  | none => simp
  | some x => simp

theorem set_slot_other {D : Type} [Movable D] (srv : communicator_server D) (w g g2 : Nat)
    (t : List D)
    (hne : g2 ≠ g) : (communication_operation.set srv w g t).1.slot g2 = srv.slot g2 := by
  simp only [communication_operation.set, communicator_server.handle_data]
  split
  · split <;> simp [hne]
  · rfl

theorem get_result {D : Type} [Movable D] (srv : communicator_server D) (w g : Nat) :
    (communication_operation.get srv w g).2
      = if w < srv.num_sites then
          match srv.slot g with
          | none => future.pending
          | some data =>
            match data[w]? with
            | some x => future.ready x
            | none => future.out_of_bounds
        else future.protocol_fault := by
  simp only [communication_operation.get, communicator_server.handle_data,
    communication_operation.get_finalizer, handle_bool]
  split
  · cases h : srv.slot g with
    | none => rfl
    | some data =>
      cases h2 : data[w]? with
      | none => simp [h2]
      | some x => simp [h2, handle_bool]
  · rfl

theorem scatter_from_result {D : Type} [Movable D] (env : Env) (st : State D) (c : communicator)
    (s g : Nat) (hs : s ≠ size_t_minus_one) (hg : g ≠ 0) :
    (scatter_from env st c s g).2 = (communication_operation.get (st.servers c) s g).2 := by
  simp [scatter_from, hg, resolve_this_site_of_ne _ _ _ hs, async_get]

theorem scatter_to_server {D : Type} [Movable D] (env : Env) (st : State D) (c : communicator)
    (v : List D) (s g : Nat) (hs : s ≠ size_t_minus_one) (hg : g ≠ 0) :
    (scatter_to env st c v s g).1.servers c
      = (communication_operation.set (st.servers c) s g v).1 := by
  simp [scatter_to, hg, resolve_this_site_of_ne _ _ _ hs, async_set]

theorem scatter_from_after_set {D : Type} [Movable D] (env : Env) (st : State D)
    (c : communicator) (v : List D) (i g : Nat) (hi : i < v.length)
    (hi2 : i ≠ size_t_minus_one) (hg : g ≠ 0) (hN : (st.servers c).num_sites = v.length)
    (hslot : (st.servers c).slot g = some v) :
    (scatter_from env st c i g).2 = future.ready v[i] := by
  rw [scatter_from_result env st c i g hi2 hg, get_result, hN, if_pos hi, hslot]
  simp [hi]

theorem set_slot_of_lt {D : Type} [Movable D] (srv : communicator_server D) (w g : Nat)
    (t : List D) (hw : w < srv.num_sites) (hwt : w < t.length) :
    (communication_operation.set srv w g t).1.slot g
      = some (t.set w (Movable.moved_from t[w])) := by
  rw [set_slot_same _ _ _ _ hw]
  simp [hwt]

theorem set_result {D : Type} [Movable D] (srv : communicator_server D) (w g : Nat) (t : List D)
    (hw : w < srv.num_sites) (hwt : w < t.length) :
    (communication_operation.set srv w g t).2 = future.ready t[w] := by
  simp [communication_operation.set, communicator_server.handle_data, hw,
    communication_operation.set_step, communication_operation.set_finalizer, handle_bool,
    hwt]

theorem scatter_to_result {D : Type} [Movable D] (env : Env) (st : State D) (c : communicator)
    (v : List D) (s g : Nat) (hs : s ≠ size_t_minus_one) (hg : g ≠ 0) :
    (scatter_to env st c v s g).2 = (communication_operation.set (st.servers c) s g v).2 := by
  simp [scatter_to, hg, resolve_this_site_of_ne _ _ _ hs, async_set]

theorem set_moved_getElem {D : Type} [Movable D] (v : List D) (r i : Nat)
    (hr : r < v.length) (hi : i < v.length)
    (hi2 : i < (v.set r (Movable.moved_from v[r])).length) :
    (v.set r (Movable.moved_from v[r]))[i]
      = if i = r then Movable.moved_from v[i] else v[i] := by
  by_cases h : i = r
  · subst h
    simp
  · rw [List.getElem_set_ne (fun e => h e.symm), if_neg h]

/-! ## The flat protocol -/

/-- C2 (the producer's own result). For a communicator created for `N` sites, a value
sequence `v` of length `N`, a site `r < N` and a valid generation, the handle returned
by `scatter_to(comm, v, r, g)` is ready with `v[r]`: the step function of `set` replaces
the slot by `v`, and the finalizer of `set` returns the element at the caller's own
index, as the finalizer of `get` does for the same index. The finalizer moves that
element out: the slot is left as `v` with element `r` moved from. -/
theorem scatter_to_own_share {D : Type} [Movable D] (env : Env) (st : State D)
    (c : communicator) (v : List D) (data : List D) (flag : Bool) (r g : Nat)
    (hN : (st.servers c).num_sites = v.length) (hlen : v.length ≤ size_t_minus_one)
    (hr : r < v.length) (hg : g ≠ 0) :
    (scatter_to env st c v r g).2 = future.ready v[r]
      ∧ ((scatter_to env st c v r g).1.servers c).slot g
        = some (v.set r (Movable.moved_from v[r]))
      ∧ communication_operation.set_step v data r = v
      ∧ communication_operation.set_finalizer v flag r
        = some (v.set r (Movable.moved_from v[r]), v[r])
      ∧ communication_operation.set_finalizer v flag r
        = communication_operation.get_finalizer v flag r := by
  have hr1 : r ≠ size_t_minus_one := by omega
  refine ⟨?_, ?_, rfl, ?_, rfl⟩
  · rw [scatter_to_result _ _ _ _ _ _ hr1 hg]
    exact set_result _ _ _ _ (by omega) hr
  · rw [scatter_to_server _ _ _ _ _ _ hr1 hg, set_slot_of_lt _ _ _ _ (by omega) hr]
  · simp [communication_operation.set_finalizer, handle_bool, hr]

/-- Witness of C2: three sites, values of type `std::vector<int>`, site 1 scatters
`[[1], [2], [3]]` and obtains `[2]`; the slot keeps an empty vector in its place. -/
theorem scatter_to_own_share_witness :
    (scatter_to (site_env 3 1 true) (fresh_state (List Nat) 3) ⟨0⟩ [[1], [2], [3]] 1 1).2
        = future.ready [2]
      ∧ ((scatter_to (site_env 3 1 true) (fresh_state (List Nat) 3) ⟨0⟩ [[1], [2], [3]] 1
          1).1.servers ⟨0⟩).slot 1 = some [[1], [], [3]] :=
  have h := scatter_to_own_share (site_env 3 1 true) (fresh_state (List Nat) 3) ⟨0⟩
    [[1], [2], [3]] [] false 1 1 rfl (by decide) (by decide) (by decide)
  ⟨h.1, h.2.1⟩

/-- C3 (generation zero on a communicator). For every communicator, value sequence and
`this_site`, `scatter_from(comm, this_site, 0)` and `scatter_to(comm, values, this_site,
0)` return a handle failed with `bad_parameter`; no communicator is touched and no
remote call (in particular no get or set action) is made. -/
theorem generation_zero_rejected {D : Type} [Movable D] (env : Env) (st : State D)
    (c : communicator)
    (v : List D) (s : Nat) :
    (scatter_from env st c s 0).2
        = future.exceptional error.bad_parameter "hpx::collectives::scatter_from"
            "the generation number shouldn't be zero"
      ∧ (scatter_to env st c v s 0).2
        = future.exceptional error.bad_parameter "hpx::collectives::scatter_to"
            "the generation number shouldn't be zero"
      ∧ dispatches (scatter_from env st c s 0).1.trace = dispatches st.trace
      ∧ dispatches (scatter_to env st c v s 0).1.trace = dispatches st.trace
      ∧ remote_calls (scatter_from env st c s 0).1.trace = remote_calls st.trace
      ∧ remote_calls (scatter_to env st c v s 0).1.trace = remote_calls st.trace
      ∧ (scatter_from env st c s 0).1.servers = st.servers
      ∧ (scatter_to env st c v s 0).1.servers = st.servers := by
  simp [scatter_from, scatter_to, resolve_this_site_servers,
    resolve_this_site_remote_calls, resolve_this_site_dispatches]

/-- Counterexample to C4: with generation 0 the base-name overloads do not fail. At
site 1 of 2, `scatter_from("scatter", 1, 0, 0)` creates the communicator and dispatches
a get action; at site 0, `scatter_to("scatter", [7, 8], 2, 0, 0)` creates the
communicator, dispatches a set action and obtains its share 7. -/
theorem basename_generation_zero_not_rejected :
    (scatter_from_basename (site_env 2 1 true) (fresh_state Nat 2) "scatter" 1 0 0).2
        = result.returned future.pending
      ∧ remote_calls
          (scatter_from_basename (site_env 2 1 true) (fresh_state Nat 2) "scatter" 1 0 0).1.trace
        = [Event.create_communicator "scatter" size_t_minus_one 1 0 0,
           Event.async_get ⟨0⟩ 1 size_t_minus_one]
      ∧ (scatter_to_basename (site_env 2 0 true) (fresh_state Nat 2) "scatter" [7, 8] 2 0 0).2
        = result.returned (future.ready 7)
      ∧ remote_calls
          (scatter_to_basename (site_env 2 0 true) (fresh_state Nat 2) "scatter" [7, 8] 2 0
            0).1.trace
        = [Event.create_communicator "scatter" 2 0 0 0,
           Event.async_set ⟨0⟩ 0 size_t_minus_one [7, 8]] := by
  decide

theorem async_get_not_exceptional {D : Type} [Movable D] (st : State D) (c : communicator)
    (which generation : Nat) (e : error) (f m : String) :
    (async_get st c which generation).2 ≠ future.exceptional e f m := by
  simp only [async_get, communication_operation.get, communicator_server.handle_data]
  split
  · split
    · simp
    · split <;> simp
  · simp

theorem async_set_not_exceptional {D : Type} [Movable D] (st : State D) (c : communicator)
    (which generation : Nat) (t : List D) (e : error) (f m : String) :
    (async_set st c which generation t).2 ≠ future.exceptional e f m := by
  simp only [async_set, communication_operation.set, communicator_server.handle_data]
  split
  · split <;> simp
  · simp

theorem async_get_trace {D : Type} [Movable D] (st : State D) (c : communicator)
    (which generation : Nat) :
    (async_get st c which generation).1.trace
      = st.trace ++ [Event.async_get c which generation] := rfl

theorem async_set_trace {D : Type} [Movable D] (st : State D) (c : communicator)
    (which generation : Nat)
    (t : List D) :
    (async_set st c which generation t).1.trace
      = st.trace ++ [Event.async_set c which generation t] := rfl

theorem scatter_from_remote_calls {D : Type} [Movable D] (env : Env) (st : State D)
    (c : communicator)
    (s g : Nat) :
    remote_calls (scatter_from env st c s g).1.trace
      = remote_calls st.trace
        ++ (if g = 0 then []
            else [Event.async_get c (if s = size_t_minus_one then env.locality_id else s)
              g]) := by
  by_cases hg : g = 0
  · simp [scatter_from, hg, resolve_this_site_remote_calls]
  · simp only [scatter_from, hg, if_false, async_get_trace, resolve_this_site_index,
      remote_calls, List.filter_append]
    rw [← remote_calls, ← remote_calls, resolve_this_site_remote_calls]
    simp [remote_calls, Event.remote]

theorem scatter_to_remote_calls {D : Type} [Movable D] (env : Env) (st : State D) (c : communicator)
    (v : List D) (s g : Nat) :
    remote_calls (scatter_to env st c v s g).1.trace
      = remote_calls st.trace
        ++ (if g = 0 then []
            else [Event.async_set c (if s = size_t_minus_one then env.locality_id else s)
              g v]) := by
  by_cases hg : g = 0
  · simp [scatter_to, hg, resolve_this_site_remote_calls]
  · simp only [scatter_to, hg, if_false, async_set_trace, resolve_this_site_index,
      remote_calls, List.filter_append]
    rw [← remote_calls, ← remote_calls, resolve_this_site_remote_calls]
    simp [remote_calls, Event.remote]

/-- C4 as amended. The base-name overloads called with generation 0 never test the
caller's generation. They first create the communicator, handing the generation 0 to
`create_communicator`, and then call the communicator overload with the default
generation: the handle is failed (with `bad_parameter`, after the communicator has been
created) exactly when the default generation is zero, and otherwise a get, respectively
set, action is dispatched for the default generation. -/
theorem basename_generation_zero_forwards_default {D : Type} [Movable D] (env : Env) (st : State D)
    (basename : String) (v : List D) (num_sites this_site root_site : Nat)
    (h : env.assertions = true → this_site ≠ root_site) :
    remote_calls (scatter_from_basename env st basename this_site 0 root_site).1.trace
        = remote_calls st.trace
          ++ Event.create_communicator basename env.num_sites_default this_site 0 root_site
          :: (if env.generation_default = 0 then []
              else [Event.async_get
                (env.create_communicator basename env.num_sites_default this_site 0 root_site)
                (if this_site = size_t_minus_one then env.locality_id else this_site)
                env.generation_default])
      ∧ remote_calls (scatter_to_basename env st basename v num_sites this_site 0).1.trace
        = remote_calls st.trace
          ++ Event.create_communicator basename num_sites this_site 0 this_site
          :: (if env.generation_default = 0 then []
              else [Event.async_set
                (env.create_communicator basename num_sites this_site 0 this_site)
                (if this_site = size_t_minus_one then env.locality_id else this_site)
                env.generation_default v])
      ∧ ((∃ f, (scatter_from_basename env st basename this_site 0 root_site).2
              = result.returned f ∧ ∃ e fn m, f = future.exceptional e fn m)
          ↔ env.generation_default = 0)
      ∧ ((∃ f, (scatter_to_basename env st basename v num_sites this_site 0).2
              = result.returned f ∧ ∃ e fn m, f = future.exceptional e fn m)
          ↔ env.generation_default = 0) := by
  have hna : ¬ (env.assertions = true ∧ this_site = root_site) := fun hh => h hh.1 hh.2
  refine ⟨?_, ?_, ?_, ?_⟩
  · simp only [scatter_from_basename, hna, if_false, scatter_from_remote_calls]
    simp [remote_calls, State.log, Event.remote]
  · simp only [scatter_to_basename, scatter_to_remote_calls]
    simp [remote_calls, State.log, Event.remote]
  · simp only [scatter_from_basename, hna, if_false, scatter_from]
    by_cases hd : env.generation_default = 0
    · simp [hd]
    · simp only [hd, if_false, iff_false]
      rintro ⟨f, hf, e, fn, m, hm⟩
      rw [hm] at hf
      exact async_get_not_exceptional _ _ _ _ e fn m (result.returned.inj hf)
  · simp only [scatter_to_basename, scatter_to]
    by_cases hd : env.generation_default = 0
    · simp [hd]
    · simp only [hd, if_false, iff_false]
      rintro ⟨f, hf, e, fn, m, hm⟩
      rw [hm] at hf
      exact async_set_not_exceptional _ _ _ _ _ e fn m (result.returned.inj hf)

/-- Witness of C4 as amended: site 1 of 2, root 0, assertions compiled in. -/
theorem basename_generation_zero_forwards_default_witness :
    remote_calls
        (scatter_from_basename (site_env 2 1 true) (fresh_state Nat 2) "scatter" 1 0 0).1.trace
      = remote_calls (fresh_state Nat 2).trace
        ++ Event.create_communicator "scatter" (site_env 2 1 true).num_sites_default 1 0 0
        :: (if (site_env 2 1 true).generation_default = 0 then []
            else [Event.async_get
              ((site_env 2 1 true).create_communicator "scatter"
                (site_env 2 1 true).num_sites_default 1 0 0)
              (if 1 = size_t_minus_one then (site_env 2 1 true).locality_id else 1)
              (site_env 2 1 true).generation_default]) :=
  (basename_generation_zero_forwards_default (site_env 2 1 true) (fresh_state Nat 2)
    "scatter" [7, 8] 2 1 0 (fun _ => by decide)).1

/-- Counterexample to C6: on a communicator of 4 sites, `scatter_from(comm, 4, 1)`
dispatches the get action for index 4; the handle it returns is not one made by
`make_exceptional_future`, it carries the fault raised by the communicator. -/
theorem out_of_range_site_is_dispatched :
    dispatches (scatter_from (site_env 4 0 true) (fresh_state Nat 4) ⟨0⟩ 4 1).1.trace
        = [Event.async_get ⟨0⟩ 4 1]
      ∧ (scatter_from (site_env 4 0 true) (fresh_state Nat 4) ⟨0⟩ 4 1).2
        = future.protocol_fault := by
  decide

/-- C6 as amended. For every communicator with `num_sites` participants and every valid
generation, `scatter_from` called with `this_site = num_sites` makes no local range
check: it dispatches the remote get action for index `num_sites`, leaves every
communicator as it was, and the handle fails only by the rendezvous-protocol fault that
the communicator raises for that index. -/
theorem out_of_range_site_faults_remotely {D : Type} [Movable D] (env : Env) (st : State D)
    (c : communicator) (g : Nat) (hg : g ≠ 0)
    (hs : (st.servers c).num_sites ≠ size_t_minus_one) :
    (scatter_from env st c (st.servers c).num_sites g).1.trace
        = st.trace ++ [Event.async_get c (st.servers c).num_sites g]
      ∧ (scatter_from env st c (st.servers c).num_sites g).2 = future.protocol_fault
      ∧ ∀ d, (scatter_from env st c (st.servers c).num_sites g).1.servers d = st.servers d := by
  refine ⟨?_, ?_, ?_⟩
  · simp [scatter_from, hg, resolve_this_site_of_ne, hs, async_get]
  · simp [scatter_from, hg, resolve_this_site_of_ne, hs, async_get,
      communication_operation.get, communicator_server.handle_data]
  · intro d
    simp only [scatter_from, hg, if_false, resolve_this_site_of_ne _ _ _ hs, async_get,
      communication_operation.get, communicator_server.handle_data, lt_irrefl]
    split
    · next h => rw [h]
    · rfl

/-- Witness of C6 as amended: a communicator of 4 sites, generation 1. -/
theorem out_of_range_site_faults_remotely_witness :
    (scatter_from (site_env 4 0 true) (fresh_state Nat 4) ⟨0⟩ 4 1).1.trace
        = (fresh_state Nat 4).trace ++ [Event.async_get ⟨0⟩ 4 1]
      ∧ (scatter_from (site_env 4 0 true) (fresh_state Nat 4) ⟨0⟩ 4 1).2
        = future.protocol_fault :=
  have h := out_of_range_site_faults_remotely (site_env 4 0 true) (fresh_state Nat 4) ⟨0⟩ 1
    (by decide) (by decide)
  ⟨h.1, h.2.1⟩

/-- C7 (argument-order overloads). For every communicator, generation, site and value
sequence, the overloads taking the generation before the site do exactly what the
canonical overloads do: the same resulting state (same calls dispatched, with the same
site and generation) and the same handle. -/
theorem argument_order_overloads_agree {D : Type} [Movable D] (env : Env) (st : State D)
    (c : communicator) (v : List D) (g s : Nat) :
    scatter_from_generation_first env st c g s = scatter_from env st c s g
      ∧ scatter_to_generation_first env st c v g s = scatter_to env st c v s g :=
  ⟨rfl, rfl⟩

theorem resolve_this_site_state {D : Type} (env : Env) (st : State D) (s : Nat) :
    (resolve_this_site env st s).1
      = if s = size_t_minus_one then st.log Event.get_locality_id else st := by
  unfold resolve_this_site
  split <;> rfl

/-- C8 (site resolution). In `scatter_from` and `scatter_to` called with a valid
generation, the index of the dispatched get, respectively set, action is the caller's
locality id when `this_site` is the sentinel `(size_t)-1`, and the supplied `this_site`
otherwise. In `scatter_hierarchically` the root, leaf and relay branches run on the
caller's locality id when `this_site` is the sentinel and on the supplied `this_site`
otherwise. In all three functions a call with the sentinel does what the call with the
locality id written out does once the locality id has been queried. -/
theorem this_site_resolution {D T : Type} [Movable D] [Movable T] (env : Env) (fuel : Nat)
    (st : State D)
    (sth : State (value T)) (c : communicator) (level : Int)
    (rest : List (communicator × Int)) (v : List D) (local_result : List T)
    (s g root_site : Nat) (arity m : Int) (hg : g ≠ 0)
    (hm : compute_min_sites arity fuel env.num_localities = result.returned m)
    (hloc : env.locality_id ≠ size_t_minus_one) :
    dispatches (scatter_from env st c s g).1.trace
        = dispatches st.trace
          ++ [Event.async_get c (if s = size_t_minus_one then env.locality_id else s) g]
      ∧ dispatches (scatter_to env st c v s g).1.trace
        = dispatches st.trace
          ++ [Event.async_set c (if s = size_t_minus_one then env.locality_id else s) g v]
      ∧ scatter_hierarchically env fuel sth ((c, level) :: rest) local_result s g root_site
          arity
        = scatter_paths env fuel
            ((if s = size_t_minus_one then sth.log Event.get_locality_id
              else sth).log Event.get_num_localities)
            c rest local_result (if s = size_t_minus_one then env.locality_id else s) g
            root_site arity m
      ∧ scatter_from env st c size_t_minus_one g
        = scatter_from env (st.log Event.get_locality_id) c env.locality_id g
      ∧ scatter_to env st c v size_t_minus_one g
        = scatter_to env (st.log Event.get_locality_id) c v env.locality_id g
      ∧ scatter_hierarchically env fuel sth ((c, level) :: rest) local_result
          size_t_minus_one g root_site arity
        = scatter_hierarchically env fuel (sth.log Event.get_locality_id)
            ((c, level) :: rest) local_result env.locality_id g root_site arity := by
  refine ⟨?_, ?_, ?_, ?_, ?_, ?_⟩
  · simp only [scatter_from, hg, if_false, async_get_trace, resolve_this_site_index,
      dispatches, List.filter_append]
    rw [← dispatches, ← dispatches, resolve_this_site_dispatches]
    simp [dispatches, Event.dispatch]
  · simp only [scatter_to, hg, if_false, async_set_trace, resolve_this_site_index,
      dispatches, List.filter_append]
    rw [← dispatches, ← dispatches, resolve_this_site_dispatches]
    simp [dispatches, Event.dispatch]
  · simp only [scatter_hierarchically, hg, if_false, hm, resolve_this_site_index,
      resolve_this_site_state]
  · simp only [scatter_from, resolve_this_site_sentinel, resolve_this_site_of_ne _ _ _ hloc]
  · simp only [scatter_to, resolve_this_site_sentinel, resolve_this_site_of_ne _ _ _ hloc]
  · simp only [scatter_hierarchically, resolve_this_site_sentinel,
      resolve_this_site_of_ne _ _ _ hloc]

/-- Witness of C8: site 5 of the 8-site scenario calls with the sentinel. -/
theorem this_site_resolution_witness :
    dispatches (scatter_from (site_env 8 5 true) (fresh_state Nat 8) ⟨0⟩ size_t_minus_one
        1).1.trace
      = dispatches (fresh_state Nat 8).trace
        ++ [Event.async_get ⟨0⟩
            (if size_t_minus_one = size_t_minus_one then (site_env 8 5 true).locality_id
              else size_t_minus_one) 1] :=
  (this_site_resolution (site_env 8 5 true) 64 (fresh_state Nat 8)
    (fresh_state (value Nat) 2) ⟨0⟩ 1 [] [] ([] : List Nat) size_t_minus_one 1 0 2 2
    (by decide) (by decide) (by decide)).1

/-- Counterexample to C9: site 0 calls `scatter_from("scatter", 0, 1, 0)`, so
`this_site` equals `root_site`. With assertions compiled in no handle is returned at
all, the call ends in the failed assertion; with assertions compiled out nothing is
detected, the communicator is created and a get action is dispatched. -/
theorem consumer_root_site_not_failed_handle :
    (scatter_from_basename (site_env 2 0 true) (fresh_state Nat 2) "scatter" 0 1 0).2
        = result.failed failure.assertion_failed
      ∧ (scatter_from_basename (site_env 2 0 false) (fresh_state Nat 2) "scatter" 0 1 0).2
        = result.returned future.pending
      ∧ remote_calls
          (scatter_from_basename (site_env 2 0 false) (fresh_state Nat 2) "scatter" 0 1
            0).1.trace
        = [Event.create_communicator "scatter" size_t_minus_one 0 1 0,
           Event.async_get ⟨0⟩ 0 size_t_minus_one] := by
  decide

/-- C9 as amended. `scatter_from(basename, this_site, generation, root_site)` called
with `this_site` equal to `root_site` is detected only by `HPX_ASSERT`, before the
communicator is created: with assertions compiled in the call ends in the failed
assertion, without any remote call and without returning a handle; with assertions
compiled out nothing is detected, the communicator is created and the communicator
overload runs with the default generation. A failed handle is returned only when
assertions are compiled out and the default generation is zero. -/
theorem consumer_root_site_asserted {D : Type} [Movable D] (env : Env) (st : State D)
    (basename : String) (s g : Nat) :
    (scatter_from_basename env st basename s g s).2
        = (if env.assertions = true then result.failed failure.assertion_failed
           else result.returned
            (scatter_from env
              (st.log (Event.create_communicator basename env.num_sites_default s g s))
              (env.create_communicator basename env.num_sites_default s g s) s
              env.generation_default).2)
      ∧ remote_calls (scatter_from_basename env st basename s g s).1.trace
        = (if env.assertions = true then remote_calls st.trace
           else remote_calls st.trace
            ++ Event.create_communicator basename env.num_sites_default s g s
            :: (if env.generation_default = 0 then []
                else [Event.async_get
                  (env.create_communicator basename env.num_sites_default s g s)
                  (if s = size_t_minus_one then env.locality_id else s)
                  env.generation_default]))
      ∧ ((∃ e fn m, (scatter_from_basename env st basename s g s).2
              = result.returned (future.exceptional e fn m))
          ↔ (env.assertions = false ∧ env.generation_default = 0)) := by
  cases ha : env.assertions
  · refine ⟨?_, ?_, ?_⟩
    · simp [scatter_from_basename, ha]
    · simp only [scatter_from_basename, ha, Bool.false_eq_true, false_and, if_false,
        scatter_from_remote_calls]
      simp [remote_calls, State.log, Event.remote]
    · simp only [scatter_from_basename, ha, Bool.false_eq_true, false_and, if_false,
        true_and, scatter_from]
      by_cases hd : env.generation_default = 0
      · simp [hd]
      · simp only [hd, if_false, iff_false]
        rintro ⟨e, fn, m, hf⟩
        exact async_get_not_exceptional _ _ _ _ e fn m (result.returned.inj hf)
  · simp [scatter_from_basename, ha]

/-- C10 (generation zero, hierarchical). For every list of communicators, value
sequence, site, root and arity, `scatter_hierarchically` called with generation 0
returns a handle failed with `bad_parameter`; at most the locality id has been queried
by then: the number of localities has not been asked for, no communicator has been
touched and no get or set action has been dispatched. -/
theorem hierarchical_generation_zero_rejected {T : Type} [Movable T] (env : Env) (fuel : Nat)
    (st : State (value T)) (communicators : List (communicator × Int))
    (local_result : List T) (s root_site : Nat) (arity : Int) :
    (scatter_hierarchically env fuel st communicators local_result s 0 root_site arity).2
        = result.returned (future.exceptional error.bad_parameter
            "hpx::collectives::scatter_to" "the generation number shouldn't be zero")
      ∧ (scatter_hierarchically env fuel st communicators local_result s 0 root_site
          arity).1.trace
        = st.trace ++ (if s = size_t_minus_one then [Event.get_locality_id] else [])
      ∧ (scatter_hierarchically env fuel st communicators local_result s 0 root_site
          arity).1.servers = st.servers := by
  refine ⟨?_, ?_, ?_⟩
  · simp [scatter_hierarchically]
  · simp only [scatter_hierarchically, if_true, resolve_this_site_state]
    split <;> simp [State.log]
  · simp [scatter_hierarchically, resolve_this_site_servers]

/-- C5, evaluated on the code: 8 sites, arity 2, root 0 and `v = [0, 1, 2, 3, 4, 5, 6, 7]`.
The flat protocol hands every site `i` the value `v[i]`. The hierarchical protocol hands
the sites 0 to 4 their value, but the sites 5, 6 and 7 obtain 4: the relay at site 4
forwards copies of the first element of its group instead of the slices of the group. -/
theorem hierarchical_scenario_diverges :
    (flat_run ⟨0⟩ [0, 1, 2, 3, 4, 5, 6, 7] (fresh_state Nat 8) [0, 1, 2, 3, 4, 5, 6, 7]).2
        = [future.ready 0, future.ready 1, future.ready 2, future.ready 3, future.ready 4,
           future.ready 5, future.ready 6, future.ready 7]
      ∧ (hierarchical_run [0, 1, 2, 3, 4, 5, 6, 7] (fresh_state (value Nat) 2)
          [0, 1, 2, 3, 4, 5, 6, 7]).2
        = [result.returned (future.ready 0), result.returned (future.ready 1),
           result.returned (future.ready 2), result.returned (future.ready 3),
           result.returned (future.ready 4), result.returned (future.ready 4),
           result.returned (future.ready 4), result.returned (future.ready 4)]
      ∧ (hierarchical_call [0, 1, 2, 3, 4, 5, 6, 7]
          (hierarchical_run [0, 1, 2, 3, 4, 5, 6, 7] (fresh_state (value Nat) 2)
            [0, 1, 2, 3, 4, 5]).1 6).2
        = result.returned (future.ready 4) := by
  decide

/-! ## The index arithmetic of the hierarchical protocol -/

theorem to_int_of_lt (n : Nat) (h : n < 2 ^ 31) : to_int n = (n : Int) := by
  unfold to_int
  have h1 : n % 2 ^ 32 = n := Nat.mod_eq_of_lt (by omega)
  rw [h1, if_pos h]

theorem divide_while_divisible_pow_mul (a m : Nat) (ha : 2 ≤ a) (hm : ¬ a ∣ m) :
    ∀ (k fuel : Nat), k < fuel →
      divide_while_divisible (a : Int) fuel ((a ^ k * m : Nat) : Int)
        = result.returned (m : Int) := by
  have ha0 : (a : Int) ≠ 0 := by exact_mod_cast (by omega : a ≠ 0)
  have hm0 : m ≠ 0 := fun h => hm (h ▸ dvd_zero a)
  intro k
  induction k with
  | zero =>
    intro fuel hf
    obtain ⟨f, rfl⟩ : ∃ f, fuel = f + 1 := ⟨fuel - 1, by omega⟩
    have hmod : ¬ ((m : Int).tmod (a : Int) = 0) := by
      rw [← Int.ofNat_tmod]
      intro h
      exact hm (Nat.dvd_of_mod_eq_zero (by exact_mod_cast h))
    simp [divide_while_divisible, ha0, hmod]
  | succ k ih =>
    intro fuel hf
    obtain ⟨f, rfl⟩ : ∃ f, fuel = f + 1 := ⟨fuel - 1, by omega⟩
    have hx : a ^ (k + 1) * m = a * (a ^ k * m) := by ring
    have hmod : ((a ^ (k + 1) * m : Nat) : Int).tmod (a : Int) = 0 := by
      rw [← Int.ofNat_tmod, hx, Nat.mul_mod_right]
      rfl
    have hne : ((a ^ (k + 1) * m : Nat) : Int) ≠ 0 := by
      have : a ^ (k + 1) * m ≠ 0 := Nat.mul_ne_zero (pow_ne_zero _ (by omega)) hm0
      exact_mod_cast this
    have hdiv : ((a ^ (k + 1) * m : Nat) : Int).tdiv (a : Int) = ((a ^ k * m : Nat) : Int) := by
      rw [← Int.ofNat_tdiv, hx, Nat.mul_div_cancel_left _ (by omega : 0 < a)]
    rw [divide_while_divisible, if_neg ha0, if_pos ⟨hmod, hne⟩, hdiv]
    exact ih f (by omega)

theorem exponent_lt_of_pow_dvd (a k n : Nat) (ha : 2 ≤ a) (hn : 1 ≤ n) (hlt : n < 2 ^ 31)
    (hk : a ^ k ∣ n) : k < 31 := by
  by_contra hge
  have h1 : 2 ^ 31 ≤ a ^ k :=
    calc 2 ^ 31 ≤ 2 ^ k := Nat.pow_le_pow_right (by omega) (by omega)
      _ ≤ a ^ k := Nat.pow_le_pow_left ha k
  have h2 : a ^ k ≤ n := Nat.le_of_dvd (by omega) hk
  omega

theorem compute_min_sites_pow_mul (a m k n fuel : Nat) (ha : 2 ≤ a) (hm : ¬ a ∣ m)
    (hn : n = a ^ k * m) (hlt : n < 2 ^ 31) (hfuel : 32 ≤ fuel) :
    compute_min_sites (a : Int) fuel n
      = result.returned (if m = 1 then (a : Int) else (m : Int)) := by
  have hm0 : m ≠ 0 := fun h => hm (h ▸ dvd_zero a)
  have hn1 : 1 ≤ n := by
    rw [hn]
    exact Nat.one_le_iff_ne_zero.mpr (Nat.mul_ne_zero (pow_ne_zero _ (by omega)) hm0)
  have hk : k < 31 := exponent_lt_of_pow_dvd a k n ha hn1 hlt ⟨m, hn⟩
  unfold compute_min_sites
  rw [to_int_of_lt n hlt, hn, divide_while_divisible_pow_mul a m ha hm k fuel (by omega)]
  simp

/-- Counterexample to C11: for one site and arity 2 the loop leaves 1, which is
replaced by the arity, and `min_sites = 2` does not divide the site count 1. -/
theorem min_sites_one_site_not_divisor :
    compute_min_sites 2 64 1 = result.returned 2 ∧ ¬ ((2 : Int) ∣ ((1 : Nat) : Int)) := by
  decide

/-- C11 as amended. For every total site count `num_sites >= 2` that fits in the `int`
variable `min_sites`, and every arity `>= 2`, the minimal group size computed by
`scatter_hierarchically` (divide by the arity while divisible, then replace 1 by the
arity) is produced, given fuel for 32 loop tests, and divides `num_sites`. -/
theorem min_sites_divides (a n fuel : Nat) (ha : 2 ≤ a) (hn : 2 ≤ n) (hlt : n < 2 ^ 31)
    (hfuel : 32 ≤ fuel) :
    ∃ min_sites : Int,
      compute_min_sites (a : Int) fuel n = result.returned min_sites
        ∧ min_sites ∣ (n : Int) := by
  obtain ⟨k, m, hm, hnk⟩ := Nat.exists_eq_pow_mul_and_not_dvd (by omega : n ≠ 0) a (by omega)
  refine ⟨_, compute_min_sites_pow_mul a m k n fuel ha hm hnk hlt hfuel, ?_⟩
  by_cases h1 : m = 1
  · rw [if_pos h1]
    subst h1
    have hk0 : k ≠ 0 := by
      intro h0
      subst h0
      simp at hnk
      omega
    have : a ∣ n := by
      rw [hnk, mul_one]
      exact dvd_pow_self a hk0
    exact_mod_cast this
  · rw [if_neg h1]
    have : m ∣ n := ⟨a ^ k, by rw [hnk]; ring⟩
    exact_mod_cast this

/-- Witness of C11 as amended: 12 sites and arity 2 give `min_sites = 3`. -/
theorem min_sites_divides_witness :
    ∃ min_sites : Int,
      compute_min_sites ((2 : Nat) : Int) 64 12 = result.returned min_sites
        ∧ min_sites ∣ ((12 : Nat) : Int) :=
  min_sites_divides 2 12 64 (by decide) (by decide) (by decide) (by decide)

/-- C20 (reference definition of `min_sites`). For every site count `num_sites >= 1`
that fits in the `int` variable `min_sites` and every arity `>= 2`, let `k` be the
largest exponent with `arity ^ k` dividing `num_sites` (such a `k` exists only for
`num_sites >= 1`) and `m = num_sites / arity ^ k`:
given fuel for 32 loop tests, `scatter_hierarchically` computes `min_sites = m` when
`m != 1` and `min_sites = arity` when `m = 1`; in particular `min_sites = arity`
whenever `num_sites` is a power of the arity. -/
theorem min_sites_reference (a n k fuel : Nat) (ha : 2 ≤ a) (hlt : n < 2 ^ 31)
    (hfuel : 32 ≤ fuel) (hk : a ^ k ∣ n) (hmax : ¬ a ^ (k + 1) ∣ n) :
    compute_min_sites (a : Int) fuel n
        = result.returned
            (if n / a ^ k = 1 then (a : Int) else ((n / a ^ k : Nat) : Int))
      ∧ ∀ j, n = a ^ j → compute_min_sites (a : Int) fuel n = result.returned (a : Int) := by
  constructor
  · have hnk : n = a ^ k * (n / a ^ k) := (Nat.mul_div_cancel' hk).symm
    have hm : ¬ a ∣ n / a ^ k := by
      rintro ⟨q, hq⟩
      apply hmax
      refine ⟨q, ?_⟩
      rw [hnk, hq]
      ring
    exact compute_min_sites_pow_mul a (n / a ^ k) k n fuel ha hm hnk hlt hfuel
  · intro j hj
    have h1 : ¬ a ∣ 1 := by
      intro h
      have := Nat.le_of_dvd (by omega) h
      omega
    have := compute_min_sites_pow_mul a 1 j n fuel ha h1 (by rw [hj, mul_one]) hlt hfuel
    simpa using this

/-- Witness of C20: 24 sites and arity 2, so `k = 3` and `m = 3`. -/
theorem min_sites_reference_witness :
    compute_min_sites ((2 : Nat) : Int) 64 24
      = result.returned
          (if 24 / 2 ^ 3 = 1 then ((2 : Nat) : Int) else ((24 / 2 ^ 3 : Nat) : Int)) :=
  (min_sites_reference 2 24 3 64 (by decide) (by decide) (by decide) (by decide)
    (by decide)).1

/-! ## The grouping of the root path -/

theorem to_size_t_of_lt (a : Nat) (h : a < 2 ^ 64) : to_size_t (a : Int) = a := by
  unfold to_size_t
  have h1 : ((a : Int) % 2 ^ 64) = (a : Int) := Int.emod_eq_of_lt (by omega) (by exact_mod_cast h)
  rw [h1]
  rfl

theorem slice_of_le {T : Type} (v : List T) (first last : Nat) (h1 : first ≤ last)
    (h2 : last ≤ v.length) (h3 : v.length < 2 ^ 31) :
    slice v (first : Int) (last : Int)
      = result.returned ((v.drop first).take (last - first)) := by
  unfold slice
  have hc : (0 : Int) ≤ (first : Int) ∧ (first : Int) ≤ (last : Int)
      ∧ (last : Int) ≤ (v.length : Int) ∧ (last : Int) < 2 ^ 31 := by
    refine ⟨by omega, by omega, by omega, ?_⟩
    have : last < 2 ^ 31 := by omega
    exact_mod_cast this
  rw [if_pos hc]
  have h4 : ((last : Int) - (first : Int)).toNat = last - first := by omega
  rw [h4, Int.toNat_ofNat]

theorem slices_eq_map {T : Type} (v : List T) (s : Nat) (h3 : v.length < 2 ^ 31) :
    ∀ js : List Nat, (∀ j ∈ js, (j + 1) * s ≤ v.length) →
      slices v (s : Int) js
        = result.returned (js.map fun j => (v.drop (j * s)).take s) := by
  intro js
  induction js with
  | nil => intro _; rfl
  | cons j js ih =>
    intro h
    have hj := h j (List.mem_cons_self j js)
    have e1 : (j : Int) * (s : Int) = ((j * s : Nat) : Int) := by push_cast; ring
    have e2 : ((j : Int) + 1) * (s : Int) = (((j + 1) * s : Nat) : Int) := by push_cast; ring
    have hsl := slice_of_le v (j * s) ((j + 1) * s) (by nlinarith) hj h3
    have hsub : (j + 1) * s - j * s = s := by
      have : (j + 1) * s = j * s + s := by ring
      omega
    rw [hsub] at hsl
    rw [slices, e1, e2, hsl, ih (fun i hi => h i (List.mem_cons_of_mem j hi))]
    rfl

theorem group_by_arity_eq {T : Type} (a : Nat) (v : List T) (ha : 1 ≤ a) (ha2 : a < 2 ^ 31)
    (hlen : v.length < 2 ^ 31) :
    group_by_arity (a : Int) v
      = result.returned ((List.range a).map fun j =>
          (v.drop (j * (v.length / a))).take (v.length / a)) := by
  unfold group_by_arity
  have h1 : ¬ ((a : Int) < 0) := by omega
  have h2 : ¬ ((a : Int) = 0) := by omega
  have hs : v.length / a < 2 ^ 31 := lt_of_le_of_lt (Nat.div_le_self _ _) hlen
  rw [if_neg h1, if_neg h2, to_size_t_of_lt a (by omega), to_int_of_lt _ hs, Int.toNat_ofNat]
  apply slices_eq_map v (v.length / a) hlen
  intro j hj
  have hja : j < a := List.mem_range.mp hj
  calc (j + 1) * (v.length / a) ≤ a * (v.length / a) := Nat.mul_le_mul_right _ (by omega)
    _ ≤ v.length := Nat.mul_div_le _ _

theorem flatten_slices {T : Type} (v : List T) (s : Nat) :
    ∀ a : Nat, ((List.range a).map fun j => (v.drop (j * s)).take s).flatten
      = v.take (a * s) := by
  intro a
  induction a with
  | zero => simp
  | succ a ih =>
    rw [List.range_succ, List.map_append, List.flatten_append, ih]
    have : (a + 1) * s = a * s + s := by ring
    rw [this, List.take_add]
    simp

theorem scatter_to_trace_of_ne {D : Type} [Movable D] (env : Env) (st : State D) (c : communicator)
    (v : List D) (s g : Nat) (hs : s ≠ size_t_minus_one) (hg : g ≠ 0) :
    (scatter_to env st c v s g).1.trace = st.trace ++ [Event.async_set c s g v] := by
  simp [scatter_to, hg, resolve_this_site_of_ne _ _ _ hs, async_set_trace]

theorem scatter_from_trace_of_ne {D : Type} [Movable D] (env : Env) (st : State D)
    (c : communicator)
    (s g : Nat) (hs : s ≠ size_t_minus_one) (hg : g ≠ 0) :
    (scatter_from env st c s g).1.trace = st.trace ++ [Event.async_get c s g] := by
  simp [scatter_from, hg, resolve_this_site_of_ne _ _ _ hs, async_get_trace]

theorem scatter_to_trace_extends {D : Type} [Movable D] (env : Env) (st : State D)
    (c : communicator)
    (v : List D) (s g : Nat) :
    ∃ more, (scatter_to env st c v s g).1.trace = st.trace ++ more := by
  unfold scatter_to
  split
  · rw [resolve_this_site_state]
    split
    · exact ⟨[Event.get_locality_id], rfl⟩
    · exact ⟨[], by simp⟩
  · rw [async_set_trace, resolve_this_site_state]
    split
    · exact ⟨[Event.get_locality_id, Event.async_set c (resolve_this_site env st s).2 g v],
        by simp [State.log]⟩
    · exact ⟨[Event.async_set c (resolve_this_site env st s).2 g v], rfl⟩

theorem last_level_trace_extends {T : Type} [Movable T] (env : Env) (g : Nat) (st : State (value T))
    (node : future (List T)) (c : communicator) :
    ∃ more, (last_level env g st node c).1.trace = st.trace ++ more := by
  unfold last_level
  split
  · exact ⟨[], by simp⟩
  · exact scatter_to_trace_extends _ _ _ _ _ _

theorem root_loop_trace_extends {T : Type} [Movable T] (env : Env) (arity : Int)
    (this_site g : Nat) :
    ∀ (rest : List (communicator × Int)) (st : State (value T)) (node : future (List T)),
      ∃ more, (root_loop env arity this_site g st node rest).1.trace = st.trace ++ more := by
  intro rest
  induction rest with
  | nil => intro st node; exact ⟨[], by simp [root_loop]⟩
  | cons c rest ih =>
    intro st node
    cases rest with
    | nil => simpa [root_loop] using last_level_trace_extends env g st node c.1
    | cons d rest =>
      simp only [root_loop]
      split
      · exact ⟨[], by simp⟩
      · split
        · exact ⟨[], by simp⟩
        · split
          · exact ⟨[], by simp⟩
          · rename_i _ _ _ _ grouped _ _ s _
            obtain ⟨m1, h1⟩ := scatter_to_trace_extends env st c.1
              (grouped.map value.group) s g
            obtain ⟨m2, h2⟩ := ih (scatter_to env st c.1 (grouped.map value.group) s g).1
              (group_future (scatter_to env st c.1 (grouped.map value.group) s g).2)
            exact ⟨m1 ++ m2, by rw [h2, h1, List.append_assoc]⟩

theorem size_t_mod_of_pos (n a : Nat) (ha : 1 ≤ a) (ha2 : a < 2 ^ 64) :
    size_t_mod n (a : Int) = result.returned (n % a) := by
  unfold size_t_mod
  rw [to_size_t_of_lt a ha2, if_neg (by omega)]

/-- C15 (root grouping). For every value sequence `v` whose length fits in an `int` and
every arity `>= 2`, with `s = len / arity` (truncating): the grouping of the root path
yields exactly `arity` groups, group `j` is the contiguous slice `v[j*s .. (j+1)*s)`
(its element `i` is `v[j*s + i]`), every group has size `s`, and the groups are in the
order of `v`. These groups are what the root hands to `scatter_to` at the first level,
and the same grouping is applied to the sequence received at every further level that
is not the last. -/
theorem root_grouping {T : Type} [Movable T] (env : Env) (fuel : Nat) (st : State (value T))
    (c d e : communicator × Int) (rest : List (communicator × Int)) (v : List T)
    (a r g : Nat) (min_sites : Int) (ha : 2 ≤ a) (ha2 : a < 2 ^ 31)
    (hlen : v.length < 2 ^ 31) (hg : g ≠ 0) :
    group_by_arity (a : Int) v
        = result.returned ((List.range a).map fun j =>
            (v.drop (j * (v.length / a))).take (v.length / a))
      ∧ ((List.range a).map fun j =>
            (v.drop (j * (v.length / a))).take (v.length / a)).length = a
      ∧ (∀ j, j < a → ((v.drop (j * (v.length / a))).take (v.length / a)).length
            = v.length / a)
      ∧ (∀ j i, j < a → i < v.length / a →
            ((v.drop (j * (v.length / a))).take (v.length / a))[i]?
              = v[j * (v.length / a) + i]?)
      ∧ (∃ more, (scatter_paths env fuel st c.1 rest v r g r (a : Int) min_sites).1.trace
            = st.trace
              ++ Event.async_set c.1 0 g
                  (((List.range a).map fun j =>
                    (v.drop (j * (v.length / a))).take (v.length / a)).map value.group)
              :: more)
      ∧ (∃ more, (root_loop env (a : Int) r g st (future.ready v) (d :: e :: rest)).1.trace
            = st.trace
              ++ Event.async_set d.1 (r % a) g
                  (((List.range a).map fun j =>
                    (v.drop (j * (v.length / a))).take (v.length / a)).map value.group)
              :: more) := by
  have hgrp := group_by_arity_eq a v (by omega) ha2 hlen
  refine ⟨hgrp, by simp, ?_, ?_, ?_, ?_⟩
  · intro j hj
    rw [List.length_take, List.length_drop]
    have h1 : (j + 1) * (v.length / a) ≤ v.length :=
      calc (j + 1) * (v.length / a) ≤ a * (v.length / a) :=
            Nat.mul_le_mul_right _ (by omega)
        _ ≤ v.length := Nat.mul_div_le _ _
    have h2 : (j + 1) * (v.length / a) = j * (v.length / a) + v.length / a := by ring
    omega
  · intro j i _ hi
    rw [List.getElem?_take_of_lt hi, List.getElem?_drop]
  · simp only [scatter_paths, if_true, hgrp]
    obtain ⟨more, hm⟩ := root_loop_trace_extends env (a : Int) r g rest
      (scatter_to env st c.1 (((List.range a).map fun j =>
        (v.drop (j * (v.length / a))).take (v.length / a)).map value.group) 0 g).1
      (group_future (scatter_to env st c.1 (((List.range a).map fun j =>
        (v.drop (j * (v.length / a))).take (v.length / a)).map value.group) 0 g).2)
    refine ⟨more, ?_⟩
    rw [hm, scatter_to_trace_of_ne _ _ _ _ _ _ (by decide) hg, List.append_assoc]
    rfl
  · have hmod := size_t_mod_of_pos r a (by omega) (by omega)
    have hidx : r % a ≠ size_t_minus_one := by
      have : r % a < a := Nat.mod_lt _ (by omega)
      unfold size_t_minus_one
      omega
    simp only [root_loop, future_get, hgrp, hmod]
    obtain ⟨more, hm⟩ := root_loop_trace_extends env (a : Int) r g (e :: rest)
      (scatter_to env st d.1 (((List.range a).map fun j =>
        (v.drop (j * (v.length / a))).take (v.length / a)).map value.group) (r % a) g).1
      (group_future (scatter_to env st d.1 (((List.range a).map fun j =>
        (v.drop (j * (v.length / a))).take (v.length / a)).map value.group) (r % a) g).2)
    refine ⟨more, ?_⟩
    rw [hm, scatter_to_trace_of_ne _ _ _ _ _ _ hidx hg, List.append_assoc]
    rfl

/-- Witness of C15: the root groups `[0, .., 7]` with arity 2 into `[0, 1, 2, 3]` and
`[4, 5, 6, 7]`. -/
theorem root_grouping_witness :
    group_by_arity 2 [0, 1, 2, 3, 4, 5, 6, 7]
      = result.returned [[0, 1, 2, 3], [4, 5, 6, 7]] :=
  (root_grouping (site_env 8 0 true) 64 (fresh_state (value Nat) 2) (⟨0⟩, 0) (⟨8⟩, 0)
    (⟨16⟩, 0) [] [0, 1, 2, 3, 4, 5, 6, 7] 2 0 1 2 (by decide) (by decide) (by decide)
    (by decide)).1.trans (by decide)

/-- C16 (remainder truncation). For every value sequence `v` whose length `len` fits in
an `int` and every arity `>= 2`: the concatenation of the groups built on the root path
is the prefix of `v` of length `arity * (len / arity)`; it is the whole of `v` exactly
when the arity divides `len`; and `v` is that concatenation followed by its last
`len mod arity` elements, which are in no group, so no element is duplicated. -/
theorem remainder_truncation {T : Type} (a : Nat) (v : List T) (ha : 2 ≤ a)
    (ha2 : a < 2 ^ 31) (hlen : v.length < 2 ^ 31) :
    ∃ grouped : List (List T),
      group_by_arity (a : Int) v = result.returned grouped
        ∧ grouped.flatten = v.take (a * (v.length / a))
        ∧ (grouped.flatten = v ↔ a ∣ v.length)
        ∧ v = grouped.flatten ++ v.drop (a * (v.length / a))
        ∧ (v.drop (a * (v.length / a))).length = v.length % a := by
  refine ⟨_, group_by_arity_eq a v (by omega) ha2 hlen, flatten_slices v _ a, ?_, ?_, ?_⟩
  · rw [flatten_slices, List.take_eq_self_iff]
    have h1 : a * (v.length / a) ≤ v.length := Nat.mul_div_le _ _
    constructor
    · intro h
      exact ⟨v.length / a, by omega⟩
    · intro h
      rw [Nat.mul_div_cancel' h]
  · rw [flatten_slices, List.take_append_drop]
  · rw [List.length_drop]
    have := Nat.mod_add_div v.length a
    omega

/-- Witness of C16: seven values and arity 2, the last value is in no group. -/
theorem remainder_truncation_witness :
    ∃ grouped : List (List Nat),
      group_by_arity ((2 : Nat) : Int) [0, 1, 2, 3, 4, 5, 6] = result.returned grouped
        ∧ grouped.flatten
          = [0, 1, 2, 3, 4, 5, 6].take (2 * ([0, 1, 2, 3, 4, 5, 6].length / 2))
        ∧ (grouped.flatten = [0, 1, 2, 3, 4, 5, 6] ↔ 2 ∣ [0, 1, 2, 3, 4, 5, 6].length)
        ∧ [0, 1, 2, 3, 4, 5, 6]
          = grouped.flatten
            ++ [0, 1, 2, 3, 4, 5, 6].drop (2 * ([0, 1, 2, 3, 4, 5, 6].length / 2))
        ∧ ([0, 1, 2, 3, 4, 5, 6].drop (2 * ([0, 1, 2, 3, 4, 5, 6].length / 2))).length
          = [0, 1, 2, 3, 4, 5, 6].length % 2 :=
  remainder_truncation 2 [0, 1, 2, 3, 4, 5, 6] (by decide) (by decide) (by decide)

/-! ## Generations -/

/-- C13 (generation isolation). On one communicator created for `N` sites, take two
scatter instances with generations `g1 != g2` (both valid), producers `r1` and `r2` and
value sequences `v1` and `v2` of length `N`. The flat operations forward the caller's
generation unchanged to the set and get dispatch. A producer of `g1` does not change
what a caller that passed `g2` obtains; and whichever producer lands first, a consumer
at site `i` that passed `g1` obtains the element `i` of the slot of `g1`, which is
`v1[i]` (for `i = r1` what the move by the producer's finalizer left of it), and one
that passed `g2` obtains the element `i` of the slot of `g2`: no value placed in the
slot of `g1` is returned to a caller that passed `g2`. -/
theorem generation_isolation {D : Type} [Movable D] (env1 env2 envc : Env) (st : State D)
    (c : communicator) (v1 v2 : List D) (r1 r2 i g1 g2 : Nat) (hne : g1 ≠ g2)
    (hg1 : g1 ≠ 0) (hg2 : g2 ≠ 0) (hN : (st.servers c).num_sites = v1.length)
    (h12 : v2.length = v1.length) (hlen : v1.length ≤ size_t_minus_one)
    (hr1 : r1 < v1.length) (hr2 : r2 < v1.length) (hi : i < v1.length)
    (hi2 : i < v2.length) :
    dispatches (scatter_to env1 st c v1 r1 g1).1.trace
        = dispatches st.trace ++ [Event.async_set c r1 g1 v1]
      ∧ dispatches (scatter_from envc st c i g2).1.trace
        = dispatches st.trace ++ [Event.async_get c i g2]
      ∧ (scatter_from envc (scatter_to env1 st c v1 r1 g1).1 c i g2).2
        = (scatter_from envc st c i g2).2
      ∧ (scatter_from envc
            (scatter_to env2 (scatter_to env1 st c v1 r1 g1).1 c v2 r2 g2).1 c i g1).2
        = future.ready (if i = r1 then Movable.moved_from v1[i] else v1[i])
      ∧ (scatter_from envc
            (scatter_to env2 (scatter_to env1 st c v1 r1 g1).1 c v2 r2 g2).1 c i g2).2
        = future.ready (if i = r2 then Movable.moved_from v2[i] else v2[i])
      ∧ (scatter_from envc
            (scatter_to env1 (scatter_to env2 st c v2 r2 g2).1 c v1 r1 g1).1 c i g1).2
        = future.ready (if i = r1 then Movable.moved_from v1[i] else v1[i])
      ∧ (scatter_from envc
            (scatter_to env1 (scatter_to env2 st c v2 r2 g2).1 c v1 r1 g1).1 c i g2).2
        = future.ready (if i = r2 then Movable.moved_from v2[i] else v2[i]) := by
  have hr1s : r1 ≠ size_t_minus_one := by omega
  have hr2s : r2 ≠ size_t_minus_one := by omega
  have his : i ≠ size_t_minus_one := by omega
  have hr2v : r2 < v2.length := by omega
  have hl1 : i < (v1.set r1 (Movable.moved_from v1[r1])).length := by
    rw [List.length_set]
    exact hi
  have hl2 : i < (v2.set r2 (Movable.moved_from v2[r2])).length := by
    rw [List.length_set]
    exact hi2
  have e1 := set_moved_getElem v1 r1 i hr1 hi hl1
  have e2 := set_moved_getElem v2 r2 i hr2v hi2 hl2
  refine ⟨?_, ?_, ?_, ?_, ?_, ?_, ?_⟩
  · simp [dispatches, scatter_to_trace_of_ne _ _ _ _ _ _ hr1s hg1, Event.dispatch]
  · simp [dispatches, scatter_from_trace_of_ne _ _ _ _ _ his hg2, Event.dispatch]
  · rw [scatter_from_result _ _ _ _ _ his hg2, scatter_from_result _ _ _ _ _ his hg2,
      get_result, get_result, scatter_to_server _ _ _ _ _ _ hr1s hg1, set_num_sites,
      set_slot_other _ _ _ _ _ hne.symm]
  · rw [← e1]
    apply scatter_from_after_set _ _ _ _ _ _ hl1 his hg1
    · rw [scatter_to_server _ _ _ _ _ _ hr2s hg2, set_num_sites,
        scatter_to_server _ _ _ _ _ _ hr1s hg1, set_num_sites, hN, List.length_set]
    · rw [scatter_to_server _ _ _ _ _ _ hr2s hg2, set_slot_other _ _ _ _ _ hne,
        scatter_to_server _ _ _ _ _ _ hr1s hg1, set_slot_of_lt _ _ _ _ (by omega) hr1]
  · rw [← e2]
    apply scatter_from_after_set _ _ _ _ _ _ hl2 his hg2
    · rw [scatter_to_server _ _ _ _ _ _ hr2s hg2, set_num_sites,
        scatter_to_server _ _ _ _ _ _ hr1s hg1, set_num_sites, hN, List.length_set, h12]
    · rw [scatter_to_server _ _ _ _ _ _ hr2s hg2, set_slot_of_lt _ _ _ _ _ hr2v]
      rw [scatter_to_server _ _ _ _ _ _ hr1s hg1, set_num_sites]
      omega
  · rw [← e1]
    apply scatter_from_after_set _ _ _ _ _ _ hl1 his hg1
    · rw [scatter_to_server _ _ _ _ _ _ hr1s hg1, set_num_sites,
        scatter_to_server _ _ _ _ _ _ hr2s hg2, set_num_sites, hN, List.length_set]
    · rw [scatter_to_server _ _ _ _ _ _ hr1s hg1, set_slot_of_lt _ _ _ _ _ hr1]
      rw [scatter_to_server _ _ _ _ _ _ hr2s hg2, set_num_sites]
      omega
  · rw [← e2]
    apply scatter_from_after_set _ _ _ _ _ _ hl2 his hg2
    · rw [scatter_to_server _ _ _ _ _ _ hr1s hg1, set_num_sites,
        scatter_to_server _ _ _ _ _ _ hr2s hg2, set_num_sites, hN, List.length_set, h12]
    · rw [scatter_to_server _ _ _ _ _ _ hr1s hg1, set_slot_other _ _ _ _ _ hne.symm,
        scatter_to_server _ _ _ _ _ _ hr2s hg2, set_slot_of_lt _ _ _ _ (by omega) hr2v]

/-! ## The paths of the hierarchical protocol -/

/-- Counterexample to C17: site 2 of the 8-site scenario (arity 2, root 0). Its
adjusted index is 1, which is not a multiple of `min_sites = 2`, yet it does not take
the leaf path: after its `scatter_from` at position 1 it dispatches a `scatter_to`. -/
theorem adjusted_index_leaf_counterexample :
    divide_while_divisible 2 64 (to_int 2) = result.returned 1
      ∧ compute_min_sites 2 64 8 = result.returned 2
      ∧ (1 : Int).tmod 2 ≠ 0
      ∧ (hierarchical_call [0, 1, 2, 3, 4, 5, 6, 7]
          (hierarchical_call [0, 1, 2, 3, 4, 5, 6, 7] (fresh_state (value Nat) 2) 0).1
          2).1.trace
        = (hierarchical_call [0, 1, 2, 3, 4, 5, 6, 7] (fresh_state (value Nat) 2) 0).1.trace
          ++ [Event.get_num_localities, Event.async_get (tree_communicator 1 0) 1 1,
              Event.async_set (tree_communicator 2 2) 0 1 [value.elem 2, value.elem 3]] := by
  decide

/-- C17 as amended. For every non-root site, if its raw index `this_site` is not a
multiple of `min_sites` (`this_site % min_sites != 0`; the adjusted index plays no part
in the test), then `scatter_hierarchically` takes the pure-leaf path: it performs a
single `scatter_from` on the top-level communicator, with the index
`this_site % min_sites`, and no `scatter_to`. -/
theorem leaf_rule {T : Type} [Movable T] (env : Env) (fuel : Nat) (st : State (value T))
    (c : communicator) (level : Int) (rest : List (communicator × Int))
    (local_result : List T) (s g root_site : Nat) (arity min_sites : Int)
    (hs : s ≠ size_t_minus_one) (hg : g ≠ 0) (hroot : s ≠ root_site)
    (hmin : compute_min_sites arity fuel env.num_localities = result.returned min_sites)
    (hms : to_size_t min_sites ≠ 0) (hleaf : s % to_size_t min_sites ≠ 0) :
    (scatter_hierarchically env fuel st ((c, level) :: rest) local_result s g root_site
        arity).1.trace
        = st.trace ++ [Event.get_num_localities,
            Event.async_get c (s % to_size_t min_sites) g]
      ∧ (scatter_hierarchically env fuel st ((c, level) :: rest) local_result s g root_site
          arity).2
        = result.returned (elem_future
            (scatter_from env (st.log Event.get_num_localities) c
              (s % to_size_t min_sites) g).2) := by
  have hidx : s % to_size_t min_sites ≠ size_t_minus_one := by
    have h1 : s % to_size_t min_sites < to_size_t min_sites := Nat.mod_lt _ (by omega)
    have h2 : to_size_t min_sites < 2 ^ 64 := by
      unfold to_size_t
      have := Int.emod_lt_of_pos min_sites (by norm_num : (0 : Int) < 2 ^ 64)
      have := Int.emod_nonneg min_sites (by norm_num : (2 : Int) ^ 64 ≠ 0)
      omega
    unfold size_t_minus_one
    omega
  have hmod : size_t_mod s min_sites = result.returned (s % to_size_t min_sites) := by
    simp [size_t_mod, hms]
  constructor
  · simp only [scatter_hierarchically, hg, if_false, hmin, resolve_this_site_of_ne _ _ _ hs,
      scatter_paths, hroot, hmod, ne_eq, hleaf, not_false_eq_true, if_true]
    rw [scatter_from_trace_of_ne _ _ _ _ _ hidx hg]
    simp [State.log]
  · simp only [scatter_hierarchically, hg, if_false, hmin, resolve_this_site_of_ne _ _ _ hs,
      scatter_paths, hroot, hmod, ne_eq, hleaf, not_false_eq_true, if_true]

/-- Witness of C17 as amended: site 5 of 8 with arity 2, so `min_sites = 2`. -/
theorem leaf_rule_witness :
    (scatter_hierarchically (site_env 8 5 true) 64 (fresh_state (value Nat) 2)
        ((tree_communicator 2 4, 1) :: []) ([] : List Nat) 5 1 0 2).1.trace
      = (fresh_state (value Nat) 2).trace
        ++ [Event.get_num_localities,
            Event.async_get (tree_communicator 2 4) (5 % to_size_t 2) 1] :=
  (leaf_rule (site_env 8 5 true) 64 (fresh_state (value Nat) 2) (tree_communicator 2 4) 1
    [] ([] : List Nat) 5 1 0 2 2 (by decide) (by decide) (by decide) (by decide)
    (by decide) (by decide)).1

/-- C18, evaluated on the code. The relay path does not re-partition the group it
received: for every arity `a >= 1` and every group that starts with `x`, each of the
`a` sub-groups handed to `scatter_to` is `a` copies of `x`. Site 4 of the 8-site
scenario receives `[4, 5, 6, 7]` and hands on `[4, 4]` twice, where the slices of the
root path would be `[4, 5]` and `[6, 7]`. -/
theorem relay_forwards_first_element :
    (∀ (a : Nat) (x : Nat) (xs : List Nat), 1 ≤ a →
        group_first_element (a : Int) (x :: xs)
          = result.returned (List.replicate a (List.replicate a x)))
      ∧ group_first_element 2 [4, 5, 6, 7] = result.returned [[4, 4], [4, 4]]
      ∧ group_by_arity 2 [4, 5, 6, 7] = result.returned [[4, 5], [6, 7]]
      ∧ dispatches
          (hierarchical_call [0, 1, 2, 3, 4, 5, 6, 7]
            (hierarchical_call [0, 1, 2, 3, 4, 5, 6, 7] (fresh_state (value Nat) 2) 0).1
            4).1.trace
        = dispatches
            (hierarchical_call [0, 1, 2, 3, 4, 5, 6, 7] (fresh_state (value Nat) 2)
              0).1.trace
          ++ [Event.async_get (tree_communicator 0 0) 1 1,
              Event.async_set (tree_communicator 1 4) 0 1
                [value.group [4, 4], value.group [4, 4]],
              Event.async_set (tree_communicator 2 4) 0 1 [value.elem 4, value.elem 4]] := by
  refine ⟨?_, by decide, by decide, by decide⟩
  intro a x xs ha
  have h1 : ¬ ((a : Int) < 0) := by omega
  have h2 : ¬ ((a : Int) = 0) := by omega
  simp [group_first_element, h1, h2]

theorem last_level_ready {T : Type} [Movable T] (env : Env) (g : Nat) (st : State (value T))
    (l : List T) (c : communicator) (hg : g ≠ 0) :
    (last_level env g st (future.ready l) c).1.trace
        = st.trace ++ [Event.async_set c 0 g (l.map value.elem)]
      ∧ ∃ f, (last_level env g st (future.ready l) c).2 = result.returned f := by
  simp only [last_level, future_get]
  exact ⟨scatter_to_trace_of_ne _ _ _ _ _ _ (by decide) hg, _, rfl⟩

theorem last_level_returned {T : Type} [Movable T] (env : Env) (g : Nat) (st st2 : State (value T))
    (node : future (List T)) (c : communicator) (f : future T) (hg : g ≠ 0)
    (h : last_level env g st node c = (st2, result.returned f)) :
    ∃ l, node = future.ready l
      ∧ st2.trace = st.trace ++ [Event.async_set c 0 g (l.map value.elem)] := by
  cases node with
  | ready l =>
    refine ⟨l, rfl, ?_⟩
    have h1 := (last_level_ready env g st l c hg).1
    rw [h] at h1
    exact h1
  | exceptional e fn m => simp [last_level, future_get] at h
  | pending => simp [last_level, future_get] at h
  | protocol_fault => simp [last_level, future_get] at h
  | out_of_bounds => simp [last_level, future_get] at h

theorem root_loop_last_event {T : Type} [Movable T] (env : Env) (arity : Int) (this_site g : Nat)
    (hg : g ≠ 0) :
    ∀ (rest : List (communicator × Int)) (st st2 : State (value T))
      (node : future (List T)) (f : future T) (hne : rest ≠ []),
      root_loop env arity this_site g st node rest = (st2, result.returned f) →
      ∃ l : List T, st2.trace.getLast?
        = some (Event.async_set (rest.getLast hne).1 0 g (l.map value.elem)) := by
  intro rest
  induction rest with
  | nil => intro _ _ _ _ hne; exact absurd rfl hne
  | cons c rest ih =>
    intro st st2 node f hne h
    cases rest with
    | nil =>
      simp only [root_loop] at h
      obtain ⟨l, _, ht⟩ := last_level_returned env g st st2 node c.1 f hg h
      exact ⟨l, by rw [ht, List.getLast?_concat]; rfl⟩
    | cons d rest =>
      simp only [root_loop] at h
      cases h1 : future_get node with
      | failed e => rw [h1] at h; simp at h
      | returned inter =>
        rw [h1] at h
        dsimp only at h
        cases h2 : group_by_arity arity inter with
        | failed e => rw [h2] at h; simp at h
        | returned grouped =>
          rw [h2] at h
          dsimp only at h
          cases h3 : size_t_mod this_site arity with
          | failed e => rw [h3] at h; simp at h
          | returned s =>
            rw [h3] at h
            dsimp only at h
            obtain ⟨l, hl⟩ := ih _ st2 _ f (List.cons_ne_nil d rest) h
            exact ⟨l, by rw [hl]; rfl⟩

/-- Counterexample to C19: the root is site 3 and there are two communicators of two
sites each. The final `scatter_to` on the last communicator is addressed by index 0,
not by the caller's `this_site` 3. -/
theorem last_level_not_raw_site :
    (scatter_hierarchically (site_env 8 3 true) 64 (fresh_state (value Nat) 2)
        [(⟨0⟩, 0), (⟨8⟩, 0)] [10, 11, 12, 13] 3 1 3 2).1.trace
        = [Event.get_num_localities,
           Event.async_set ⟨0⟩ 0 1 [value.group [10, 11], value.group [12, 13]],
           Event.async_set ⟨8⟩ 0 1 [value.elem 10, value.elem 11]]
      ∧ (scatter_hierarchically (site_env 8 3 true) 64 (fresh_state (value Nat) 2)
          [(⟨0⟩, 0), (⟨8⟩, 0)] [10, 11, 12, 13] 3 1 3 2).2
        = result.returned (future.ready 10) := by
  decide

/-- C19 as amended. On the root path of `scatter_hierarchically` with at least two
communicators, the final `scatter_to` on the last communicator is passed the
individual-element sequence obtained from the previous level and is addressed by
index 0 (`this_site_arg(0)`), for every root site value; this is the caller's raw
`this_site` only when the root is site 0. With exactly two communicators the root
dispatches the groups to the first and the elements of its own group, the first one, to
the second, both at index 0, and returns a handle. -/
theorem last_level_addressing {T : Type} [Movable T] (env : Env) (fuel : Nat) (st : State (value T))
    (c0 c1 : communicator × Int) (v : List T) (a r g : Nat) (min_sites : Int)
    (ha : 2 ≤ a) (ha2 : a < 2 ^ 31) (hlen : v.length < 2 ^ 31) (hg : g ≠ 0)
    (hN : 1 ≤ (st.servers c0.1).num_sites) :
    (∀ (st1 : State (value T)) (l : List T) (c : communicator),
        (last_level env g st1 (future.ready l) c).1.trace
          = st1.trace ++ [Event.async_set c 0 g (l.map value.elem)])
      ∧ (scatter_paths env fuel st c0.1 [c1] v r g r (a : Int) min_sites).1.trace
        = st.trace
          ++ [Event.async_set c0.1 0 g
                (((List.range a).map fun j =>
                  (v.drop (j * (v.length / a))).take (v.length / a)).map value.group),
              Event.async_set c1.1 0 g ((v.take (v.length / a)).map value.elem)]
      ∧ (∃ f, (scatter_paths env fuel st c0.1 [c1] v r g r (a : Int) min_sites).2
          = result.returned f)
      ∧ ∀ (rest : List (communicator × Int)) (st2 : State (value T)) (f : future T)
          (hne : rest ≠ []),
          scatter_paths env fuel st c0.1 rest v r g r (a : Int) min_sites
            = (st2, result.returned f) →
          ∃ l : List T, st2.trace.getLast?
            = some (Event.async_set (rest.getLast hne).1 0 g (l.map value.elem)) := by
  have hgrp := group_by_arity_eq a v (by omega) ha2 hlen
  have hfut : group_future (scatter_to env st c0.1
      (((List.range a).map fun j =>
        (v.drop (j * (v.length / a))).take (v.length / a)).map value.group) 0 g).2
      = future.ready (v.take (v.length / a)) := by
    rw [scatter_to_result _ _ _ _ _ _ (by decide) hg,
      set_result _ _ _ _ (by omega) (by simp; omega)]
    simp [group_future, List.getElem_range]
  refine ⟨fun st1 l c => (last_level_ready env g st1 l c hg).1, ?_, ?_, ?_⟩
  · simp only [scatter_paths, if_true, hgrp, root_loop, hfut]
    rw [(last_level_ready env g _ _ _ hg).1, scatter_to_trace_of_ne _ _ _ _ _ _ (by decide) hg]
    simp
  · simp only [scatter_paths, if_true, hgrp, root_loop, hfut]
    exact (last_level_ready env g _ _ _ hg).2
  · intro rest st2 f hne h
    simp only [scatter_paths, if_true, hgrp] at h
    exact root_loop_last_event env (a : Int) r g hg rest _ st2 _ f hne h

/-- Witness of C19 as amended: root site 3, two communicators of two sites each. -/
theorem last_level_addressing_witness :
    (scatter_paths (site_env 8 3 true) 64 (fresh_state (value Nat) 2) (⟨0⟩, (0 : Int)).1
        [(⟨8⟩, 0)] [10, 11, 12, 13] 3 1 3 ((2 : Nat) : Int) 2).1.trace
      = [Event.async_set ⟨0⟩ 0 1 [value.group [10, 11], value.group [12, 13]],
         Event.async_set ⟨8⟩ 0 1 [value.elem 10, value.elem 11]] :=
  (last_level_addressing (site_env 8 3 true) 64 (fresh_state (value Nat) 2) (⟨0⟩, 0)
    (⟨8⟩, 0) [10, 11, 12, 13] 2 3 1 2 (by decide) (by decide) (by decide) (by decide)
    (by decide)).2.1.trans (by decide)

/-- Witness of C13: three sites, values of type `std::vector<int>`, generation 1 scatters
`[[1], [2], [3]]` and generation 2 scatters `[[4], [5], [6]]`, both from site 0; site 2
obtains `[3]` under generation 1 and `[6]` under generation 2. -/
theorem generation_isolation_witness :
    (scatter_from (site_env 3 2 true)
        (scatter_to (site_env 3 0 true)
          (scatter_to (site_env 3 0 true) (fresh_state (List Nat) 3) ⟨0⟩ [[1], [2], [3]] 0
            1).1 ⟨0⟩ [[4], [5], [6]] 0 2).1 ⟨0⟩ 2 1).2 = future.ready [3]
      ∧ (scatter_from (site_env 3 2 true)
          (scatter_to (site_env 3 0 true)
            (scatter_to (site_env 3 0 true) (fresh_state (List Nat) 3) ⟨0⟩ [[1], [2], [3]] 0
              1).1 ⟨0⟩ [[4], [5], [6]] 0 2).1 ⟨0⟩ 2 2).2 = future.ready [6] :=
  have h := generation_isolation (site_env 3 0 true) (site_env 3 0 true) (site_env 3 2 true)
    (fresh_state (List Nat) 3) ⟨0⟩ [[1], [2], [3]] [[4], [5], [6]] 0 0 2 1 2 (by decide)
    (by decide) (by decide) rfl rfl (by decide) (by decide) (by decide) (by decide)
    (by decide)
  ⟨h.2.2.2.1, h.2.2.2.2.1⟩

/-! ## Termination of the index reductions -/

theorem to_int_natAbs_lt (n : Nat) : (to_int n).natAbs < 2 ^ 32 := by
  unfold to_int
  have h : n % 2 ^ 32 < 2 ^ 32 := Nat.mod_lt _ (by norm_num)
  split <;> omega

theorem divide_while_divisible_terminates (a : Int) (ha : 2 ≤ a) :
    ∀ (n : Nat) (x : Int), x.natAbs < 2 ^ n → ∀ fuel, n < fuel →
      ∃ m, divide_while_divisible a fuel x = result.returned m := by
  have ha0 : a ≠ 0 := by omega
  intro n
  induction n with
  | zero =>
    intro x hx fuel hf
    obtain ⟨f, rfl⟩ : ∃ f, fuel = f + 1 := ⟨fuel - 1, by omega⟩
    have hx0 : x = 0 := by omega
    exact ⟨0, by simp [divide_while_divisible, ha0, hx0]⟩
  | succ n ih =>
    intro x hx fuel hf
    obtain ⟨f, rfl⟩ : ∃ f, fuel = f + 1 := ⟨fuel - 1, by omega⟩
    rw [divide_while_divisible, if_neg ha0]
    split
    · apply ih _ _ f (by omega)
      rw [Int.natAbs_tdiv]
      have h2 : 2 ≤ a.natAbs := by omega
      have h3 : x.natAbs / a.natAbs ≤ x.natAbs / 2 := Nat.div_le_div_left h2 (by norm_num)
      have h4 : x.natAbs / 2 < 2 ^ n := by
        have : x.natAbs < 2 * 2 ^ n := by rw [← pow_succ']; exact hx
        omega
      exact lt_of_le_of_lt h3 h4
    · exact ⟨x, rfl⟩

theorem divide_while_divisible_arity_one (x : Int) (hx : x ≠ 0) :
    ∀ fuel, divide_while_divisible 1 fuel x = result.failed failure.out_of_fuel := by
  intro fuel
  induction fuel with
  | zero => rfl
  | succ f ih =>
    rw [divide_while_divisible, if_neg (by decide), if_pos ⟨Int.tmod_one x, hx⟩, Int.tdiv_one]
    exact ih

/-- C21 (termination of the index reductions). For every arity `>= 2`, every
`num_sites >= 0` and every `this_site >= 0`, the `min_sites` loop and the
`adjusted_site` loop of `scatter_hierarchically` finish, given fuel for 33 loop tests,
and never divide by zero: they return a value. Each iteration taken on a positive value
leaves a smaller positive value. The hypothesis on the arity is needed: with arity 1 a
non-zero variable is divided by 1 for ever, whatever the fuel. -/
theorem index_reductions_terminate (a : Int) (num_sites this_site fuel : Nat) (ha : 2 ≤ a)
    (hfuel : 33 ≤ fuel) :
    (∃ m, divide_while_divisible a fuel (to_int num_sites) = result.returned m)
      ∧ (∃ m, compute_min_sites a fuel num_sites = result.returned m)
      ∧ (∃ m, divide_while_divisible a fuel (to_int this_site) = result.returned m)
      ∧ (∀ x : Int, 0 < x → x.tmod a = 0 → 0 < x.tdiv a ∧ x.tdiv a < x)
      ∧ (∀ x : Int, x ≠ 0 → x.tdiv 1 = x
          ∧ ∀ f, divide_while_divisible 1 f x = result.failed failure.out_of_fuel) := by
  have h1 := divide_while_divisible_terminates a ha 32 (to_int num_sites)
    (to_int_natAbs_lt num_sites) fuel (by omega)
  have h2 := divide_while_divisible_terminates a ha 32 (to_int this_site)
    (to_int_natAbs_lt this_site) fuel (by omega)
  refine ⟨h1, ?_, h2, ?_, ?_⟩
  · obtain ⟨m, hm⟩ := h1
    exact ⟨_, by rw [compute_min_sites, hm]⟩
  · intro x hx hmod
    have h := Int.tmod_add_tdiv x a
    rw [hmod, zero_add] at h
    have hq : 0 < x.tdiv a := by
      by_contra hn
      have : a * x.tdiv a ≤ 0 := Int.mul_nonpos_of_nonneg_of_nonpos (by omega) (by omega)
      omega
    refine ⟨hq, ?_⟩
    nlinarith
  · intro x hx
    exact ⟨Int.tdiv_one x, divide_while_divisible_arity_one x hx⟩

/-- Witness of C21: arity 2, 8 localities, site 6. -/
theorem index_reductions_terminate_witness :
    (∃ m, divide_while_divisible 2 64 (to_int 8) = result.returned m)
      ∧ (∃ m, compute_min_sites 2 64 8 = result.returned m)
      ∧ (∃ m, divide_while_divisible 2 64 (to_int 6) = result.returned m) :=
  have h := index_reductions_terminate 2 8 6 64 (by decide) (by decide)
  ⟨h.1, h.2.1, h.2.2.1⟩

/-! ## The relay path -/

theorem relay_loop_trace_extends {T : Type} [Movable T] (env : Env) (arity : Int) (g : Nat) :
    ∀ (rest : List (communicator × Int)) (st : State (value T)) (node : future (List T)),
      ∃ more, (relay_loop env arity g st node rest).1.trace = st.trace ++ more := by
  intro rest
  induction rest with
  | nil => intro st node; exact ⟨[], by simp [relay_loop]⟩
  | cons c rest ih =>
    intro st node
    cases rest with
    | nil => simpa [relay_loop] using last_level_trace_extends env g st node c.1
    | cons d rest =>
      simp only [relay_loop]
      cases h1 : future_get node with
      | failed e => exact ⟨[], by simp⟩
      | returned inter =>
        dsimp only
        cases h2 : group_first_element arity inter with
        | failed e => exact ⟨[], by simp⟩
        | returned grouped =>
          dsimp only
          obtain ⟨m1, hm1⟩ := scatter_to_trace_extends env st c.1
            (grouped.map value.group) 0 g
          obtain ⟨m2, hm2⟩ := ih (scatter_to env st c.1 (grouped.map value.group) 0 g).1
            (group_future (scatter_to env st c.1 (grouped.map value.group) 0 g).2)
          exact ⟨m1 ++ m2, by rw [hm2, hm1, List.append_assoc]⟩

/-- C27 (relay position). For every arity `>= 2` and every `this_site > 0` (both within
the range of `int`), the loop of the relay path, given fuel for 32 loop tests, yields an
`adjusted_site` with `this_site = adjusted_site * arity ^ j` for some `j >= 0` and
`adjusted_site % arity != 0`; so the position `adjusted_site % arity` lies in
`[1, arity - 1]`, is 1 when the arity is 2, and is the index of the `scatter_from` that
the relay path dispatches on the top-level communicator. -/
theorem relay_position {T : Type} [Movable T] (env : Env) (st : State (value T)) (c : communicator)
    (rest : List (communicator × Int)) (local_result : List T) (a s g root_site fuel : Nat)
    (min_sites : Int) (ha : 2 ≤ a) (ha2 : a < 2 ^ 31) (hs : 0 < s) (hs2 : s < 2 ^ 31)
    (hfuel : 32 ≤ fuel) (hg : g ≠ 0) (hroot : s ≠ root_site)
    (hrelay : size_t_mod s min_sites = result.returned 0) :
    ∃ adjusted j : Nat,
      divide_while_divisible (a : Int) fuel (to_int s) = result.returned (adjusted : Int)
        ∧ s = adjusted * a ^ j
        ∧ adjusted % a ≠ 0
        ∧ to_size_t ((adjusted : Int).tmod (a : Int)) = adjusted % a
        ∧ 1 ≤ adjusted % a ∧ adjusted % a ≤ a - 1
        ∧ (a = 2 → adjusted % a = 1)
        ∧ ∃ more,
            (scatter_paths env fuel st c rest local_result s g root_site (a : Int)
              min_sites).1.trace
              = st.trace ++ Event.async_get c (adjusted % a) g :: more := by
  obtain ⟨j, m, hm, hsm⟩ := Nat.exists_eq_pow_mul_and_not_dvd (by omega : s ≠ 0) a (by omega)
  have hj : j < 31 := exponent_lt_of_pow_dvd a j s ha (by omega) hs2 ⟨m, hsm⟩
  have hloop : divide_while_divisible (a : Int) fuel (to_int s) = result.returned (m : Int) := by
    rw [to_int_of_lt s hs2, hsm]
    exact divide_while_divisible_pow_mul a m ha hm j fuel (by omega)
  have hmod : m % a ≠ 0 := fun h => hm (Nat.dvd_of_mod_eq_zero h)
  have hlt : m % a < a := Nat.mod_lt _ (by omega)
  have hpos : to_size_t ((m : Int).tmod (a : Int)) = m % a := by
    rw [← Int.ofNat_tmod]
    exact to_size_t_of_lt _ (by omega)
  refine ⟨m, j, hloop, by rw [hsm]; ring, hmod, hpos, by omega, by omega, by omega, ?_⟩
  have hidx : m % a ≠ size_t_minus_one := by
    unfold size_t_minus_one
    omega
  simp only [scatter_paths, hroot, if_false, hrelay, ne_eq, not_true_eq_false, hloop, hpos]
  obtain ⟨more, hmore⟩ := relay_loop_trace_extends env (a : Int) g rest
    (scatter_from env st c (m % a) g).1 (group_future (scatter_from env st c (m % a) g).2)
  refine ⟨more, ?_⟩
  rw [hmore, scatter_from_trace_of_ne _ _ _ _ _ hidx hg, List.append_assoc]
  rfl

/-- Witness of C27: site 6 of 8 with arity 2 has adjusted index 3 and position 1. -/
theorem relay_position_witness :
    ∃ adjusted j : Nat,
      divide_while_divisible ((2 : Nat) : Int) 64 (to_int 6) = result.returned (adjusted : Int)
        ∧ 6 = adjusted * 2 ^ j
        ∧ adjusted % 2 ≠ 0
        ∧ to_size_t ((adjusted : Int).tmod ((2 : Nat) : Int)) = adjusted % 2
        ∧ 1 ≤ adjusted % 2 ∧ adjusted % 2 ≤ 2 - 1
        ∧ ((2 : Nat) = 2 → adjusted % 2 = 1)
        ∧ ∃ more,
            (scatter_paths (site_env 8 6 true) 64 (fresh_state (value Nat) 2)
              (tree_communicator 1 4) [(tree_communicator 2 6, 0)] ([] : List Nat) 6 1 0
              ((2 : Nat) : Int) 2).1.trace
              = (fresh_state (value Nat) 2).trace
                ++ Event.async_get (tree_communicator 1 4) (adjusted % 2) 1 :: more :=
  relay_position (site_env 8 6 true) (fresh_state (value Nat) 2) (tree_communicator 1 4)
    [(tree_communicator 2 6, 0)] ([] : List Nat) 2 6 1 0 64 2 (by decide) (by decide)
    (by decide) (by decide) (by decide) (by decide) (by decide) (by decide)

/-- C28, evaluated on the code. With exactly one communicator the root path and the
relay path of `scatter_hierarchically` never return a handle: once the first
`scatter_to`, respectively `scatter_from`, has been issued the loop over the further
communicators does not run and control flows off the end of the function. The first
element of the list is read without a test, so an empty list is undefined behaviour as
well. Shown for every input of the two paths and on the 8-site scenario (root site 0,
relay site 4). -/
theorem single_communicator_no_return :
    (∀ (env : Env) (fuel : Nat) (st : State (value Nat)) (c : communicator) (v : List Nat)
        (r g : Nat) (arity min_sites : Int) (h : future Nat),
        (scatter_paths env fuel st c [] v r g r arity min_sites).2 ≠ result.returned h)
      ∧ (∀ (env : Env) (arity : Int) (g : Nat) (st : State (value Nat))
          (node : future (List Nat)),
          (relay_loop env arity g st node []).2
            = result.failed failure.undefined_behaviour)
      ∧ (scatter_hierarchically (site_env 8 0 true) 64 (fresh_state (value Nat) 2)
          [(tree_communicator 0 0, 0)] [0, 1, 2, 3, 4, 5, 6, 7] 0 1 0 2).2
        = result.failed failure.undefined_behaviour
      ∧ (scatter_hierarchically (site_env 8 4 true) 64
          (scatter_hierarchically (site_env 8 0 true) 64 (fresh_state (value Nat) 2)
            [(tree_communicator 0 0, 0)] [0, 1, 2, 3, 4, 5, 6, 7] 0 1 0 2).1
          [(tree_communicator 0 0, 1)] [] 4 1 0 2).2
        = result.failed failure.undefined_behaviour
      ∧ (scatter_hierarchically (site_env 8 0 true) 64 (fresh_state (value Nat) 2)
          [] [0, 1, 2, 3, 4, 5, 6, 7] 0 1 0 2).2
        = result.failed failure.undefined_behaviour := by
  refine ⟨?_, ?_, by decide, by decide, by decide⟩
  · intro env fuel st c v r g arity min_sites h
    simp only [scatter_paths, if_true]
    cases group_by_arity arity v with
    | failed e => simp
    | returned grouped => simp [root_loop]
  · intro env arity g st node
    rfl

end collectives

namespace components

namespace server

/-! ## The registry of component factories -/

/-- C22 (component registry lookup). For every component type, each of
`factory_properties`, `create_component` and `create_one_component` raises
`bad_component_type` if and only if the registry has no entry for the type or the
entry's factory is null, and raises nothing else; otherwise it returns what the
registered factory returns (`get_factory_properties()`, `create(count)`,
`create_one(arg0)`). In every case the object, and with it the registry, is left
unchanged. -/
theorem registry_lookup (fw : Framework) (self : runtime_support) (type : Int)
    (count arg0 : Nat) :
    (factory_properties fw self type).1 = self
      ∧ (create_component fw self type count).1 = self
      ∧ (create_one_component fw self type arg0).1 = self
      ∧ ((∃ e func msg, (factory_properties fw self type).2 = outcome.thrown e func msg)
          ↔ (map_find self.components_ type = none
              ∨ ∃ d, map_find self.components_ type = some (none, d)))
      ∧ ((∃ e func msg, (create_component fw self type count).2 = outcome.thrown e func msg)
          ↔ (map_find self.components_ type = none
              ∨ ∃ d, map_find self.components_ type = some (none, d)))
      ∧ ((∃ e func msg,
            (create_one_component fw self type arg0).2 = outcome.thrown e func msg)
          ↔ (map_find self.components_ type = none
              ∨ ∃ d, map_find self.components_ type = some (none, d)))
      ∧ (∀ e func msg, (factory_properties fw self type).2 = outcome.thrown e func msg →
          e = error.bad_component_type)
      ∧ (∀ e func msg, (create_component fw self type count).2 = outcome.thrown e func msg →
          e = error.bad_component_type)
      ∧ (∀ e func msg,
          (create_one_component fw self type arg0).2 = outcome.thrown e func msg →
          e = error.bad_component_type)
      ∧ (∀ factory d, map_find self.components_ type = some (some factory, d) →
          (factory_properties fw self type).2
              = outcome.returned factory.get_factory_properties
            ∧ (create_component fw self type count).2
              = outcome.returned (factory.create count)
            ∧ (create_one_component fw self type arg0).2
              = outcome.returned (factory.create_one arg0)) := by
  unfold factory_properties create_component create_one_component
  cases h : map_find self.components_ type with
  | none => simp
  | some entry =>
    obtain ⟨f, d⟩ := entry
    cases f with
    | none => simp
    | some factory => simp

theorem tidy_loop_empty :
    ∀ (it : List (Int × component_factory_type)) (m : component_map_type),
      (∀ e ∈ m, e.1 ∈ it.map Prod.fst) → (tidy_loop it m).1 = [] := by
  intro it
  induction it with
  | nil =>
    intro m h
    simp only [tidy_loop]
    exact List.eq_nil_iff_forall_not_mem.2 fun e he => by simpa using h e he
  | cons curr it ih =>
    intro m h
    simp only [tidy_loop]
    apply ih
    intro e he
    simp only [map_erase, List.mem_filter, decide_eq_true_eq] at he
    have h1 := h e he.1
    simp only [List.map_cons, List.mem_cons] at h1
    rcases h1 with h1 | h1
    · exact absurd h1 he.2
    · exact h1

theorem tidy_loop_reset (it : List (Int × component_factory_type)) (k : Int) :
    ∀ m : component_map_type,
      tidy_event.reset k ∈ (tidy_loop it m).2 ↔ ∃ factory d, (k, (some factory, d)) ∈ it := by
  induction it with
  | nil => intro m; simp [tidy_loop]
  | cons curr it ih =>
    intro m
    obtain ⟨key, f, d⟩ := curr
    cases f with
    | none =>
      simp only [tidy_loop, List.nil_append, ih, List.mem_cons, Prod.mk.injEq]
      constructor
      · rintro ⟨factory, d2, h⟩
        exact ⟨factory, d2, Or.inr h⟩
      · rintro ⟨factory, d2, h | h⟩
        · simp at h
        · exact ⟨factory, d2, h⟩
    | some factory =>
      simp only [tidy_loop, List.mem_append, ih, List.mem_cons, Prod.mk.injEq]
      constructor
      · rintro ((h | h) | ⟨f2, d2, h⟩)
        · split at h <;> simp at h
        · rcases h with h | h
          · injection h with h
            exact ⟨factory, d, Or.inl ⟨h, rfl, rfl⟩⟩
          · simp at h
        · exact ⟨f2, d2, Or.inr h⟩
      · rintro ⟨f2, d2, h | h⟩
        · exact Or.inl (Or.inr (Or.inl (by rw [h.1])))
        · exact Or.inr ⟨f2, d2, h⟩

theorem tidy_loop_keep_alive (it : List (Int × component_factory_type)) (k : Int) (d : dll) :
    ∀ m : component_map_type,
      tidy_event.keep_alive k d ∈ (tidy_loop it m).2
        ↔ ∃ factory, (k, (some factory, d)) ∈ it ∧ factory.may_unload = false := by
  induction it with
  | nil => intro m; simp [tidy_loop]
  | cons curr it ih =>
    intro m
    obtain ⟨key, f, d0⟩ := curr
    cases f with
    | none =>
      simp only [tidy_loop, List.nil_append, ih, List.mem_cons, Prod.mk.injEq]
      constructor
      · rintro ⟨factory, h, hu⟩
        exact ⟨factory, Or.inr h, hu⟩
      · rintro ⟨factory, h | h, hu⟩
        · simp at h
        · exact ⟨factory, h, hu⟩
    | some factory =>
      simp only [tidy_loop, List.mem_append, ih, List.mem_cons, Prod.mk.injEq]
      constructor
      · rintro ((h | h) | ⟨f2, h, hu⟩)
        · split at h
          · next hu =>
            simp only [List.mem_singleton, tidy_event.keep_alive.injEq] at h
            exact ⟨factory, Or.inl ⟨h.1, rfl, h.2⟩, hu⟩
          · simp at h
        · simp at h
        · exact ⟨f2, Or.inr h, hu⟩
      · rintro ⟨f2, h | h, hu⟩
        · obtain ⟨hk, hf, hd⟩ := h
          have hf2 : f2 = factory := Option.some.inj hf
          subst hf2
          exact Or.inl (Or.inl (by simp [hu, hk, hd]))
        · exact Or.inr ⟨f2, h, hu⟩

/-- C26 (`tidy` empties the registry). For every registry state, after
`runtime_support::tidy` the component map is empty and the two flags are as before; the
factory pointer of an entry has been reset exactly when it was not null; and
`keep_alive` has been called on the module of an entry exactly when the entry had a
non-null factory whose `may_unload()` returned false. -/
theorem tidy_empties_registry (self : runtime_support) :
    (tidy self).1.components_ = []
      ∧ (tidy self).1.stopped_ = self.stopped_
      ∧ (tidy self).1.terminated_ = self.terminated_
      ∧ (∀ k, tidy_event.reset k ∈ (tidy self).2
          ↔ ∃ factory d, (k, (some factory, d)) ∈ self.components_)
      ∧ (∀ k d, tidy_event.keep_alive k d ∈ (tidy self).2
          ↔ ∃ factory, (k, (some factory, d)) ∈ self.components_
              ∧ factory.may_unload = false) :=
  ⟨tidy_loop_empty _ _ fun _ he => List.mem_map_of_mem Prod.fst he, rfl, rfl,
    fun k => tidy_loop_reset _ k _, fun k d => tidy_loop_keep_alive _ k d _⟩

theorem map_find_ordered_insert (key : Int) (v : component_factory_type) :
    ∀ (m : component_map_type), map_find m key = none →
      ∀ k, map_find (ordered_insert key v m) k = if k = key then some v else map_find m k := by
  intro m
  induction m with
  | nil =>
    intro _ k
    by_cases hk : k = key
    · simp [ordered_insert, map_find, hk]
    · have hk2 : ¬ key = k := fun h => hk h.symm
      simp [ordered_insert, map_find, hk, hk2]
  | cons e rest ih =>
    obtain ⟨k0, w⟩ := e
    intro h k
    have h0 : ¬ k0 = key := by
      intro h1
      simp [map_find, h1] at h
    have hrest : map_find rest key = none := by
      simpa [map_find, h0] using h
    by_cases hlt : key < k0
    · by_cases hk : k = key
      · simp [ordered_insert, hlt, map_find, hk]
      · have hk2 : ¬ key = k := fun h => hk h.symm
        simp [ordered_insert, hlt, map_find, hk, hk2]
    · by_cases hk : k = key
      · subst hk
        simp only [ordered_insert, hlt, if_false, map_find, h0, ih hrest k, if_true]
      · simp only [ordered_insert, hlt, if_false, map_find, ih hrest k, hk]

theorem map_insert_of_none (m : component_map_type) (key : Int) (v : component_factory_type)
    (h : map_find m key = none) : map_insert m key v = (ordered_insert key v m, true) := by
  simp [map_insert, h]

theorem map_insert_of_some (m : component_map_type) (key : Int) (v w : component_factory_type)
    (h : map_find m key = some w) : map_insert m key v = (m, false) := by
  simp [map_insert, h]

theorem load_component_flags (fw : Framework) (self : runtime_support)
    (instance_name component lib : String) (isdefault : Bool) :
    (load_component fw self instance_name component lib isdefault).1.stopped_ = self.stopped_
      ∧ (load_component fw self instance_name component lib isdefault).1.terminated_
        = self.terminated_ := by
  unfold load_component
  split
  · exact ⟨rfl, rfl⟩
  · split
    · exact ⟨rfl, rfl⟩
    · dsimp only
      split_ifs <;> exact ⟨rfl, rfl⟩

/-- The value of `load_component` once the extension is right, the factory has been
created and its component type `t` is not zero, by the keys that are registered. -/
theorem load_component_cases (fw : Framework) (self : runtime_support)
    (instance_name component lib : String) (isdefault : Bool)
    (factory : component_factory_base) (d : dll)
    (hext : fw.extension lib = fw.shared_lib_extension)
    (hfac : fw.create_factory lib component instance_name = some (factory, d))
    (ht : factory.get_component_type ≠ 0) :
    load_component fw self instance_name component lib isdefault
      = match map_find self.components_ factory.get_component_type with
        | some _ => (self, false)
        | none =>
          let m1 := ordered_insert factory.get_component_type (some factory, d)
            self.components_
          if fw.get_derived_type factory.get_component_type = 0 then
            (⟨self.stopped_, self.terminated_, m1⟩, true)
          else
            match map_find m1 (fw.get_derived_type factory.get_component_type) with
            | some _ => (⟨self.stopped_, self.terminated_, m1⟩, false)
            | none =>
              let m2 := ordered_insert (fw.get_derived_type factory.get_component_type)
                (some factory, d) m1
              match map_find m2 (fw.get_base_type factory.get_component_type) with
              | some _ => (⟨self.stopped_, self.terminated_, m2⟩, false)
              | none =>
                (⟨self.stopped_, self.terminated_,
                  ordered_insert (fw.get_base_type factory.get_component_type)
                    (some factory, d) m2⟩, true) := by
  unfold load_component
  simp only [hext, ne_eq, not_true_eq_false, if_false, hfac, ht]
  cases h0 : map_find self.components_ factory.get_component_type with
  | some w =>
    rw [map_insert_of_some _ _ _ w h0]
    simp
  | none =>
    rw [map_insert_of_none _ _ _ h0]
    by_cases hd : fw.get_derived_type factory.get_component_type = 0
    · simp [hd]
    · simp only [hd, not_false_eq_true, if_true, if_false]
      cases h1 : map_find (ordered_insert factory.get_component_type (some factory, d)
          self.components_) (fw.get_derived_type factory.get_component_type) with
      | some w =>
        rw [map_insert_of_some _ _ _ w h1]
        simp
      | none =>
        rw [map_insert_of_none _ _ _ h1]
        simp only [if_true]
        cases h2 : map_find (ordered_insert (fw.get_derived_type factory.get_component_type)
            (some factory, d) (ordered_insert factory.get_component_type (some factory, d)
              self.components_)) (fw.get_base_type factory.get_component_type) with
        | some w =>
          rw [map_insert_of_some _ _ _ w h2]
          simp
        | none =>
          rw [map_insert_of_none _ _ _ h2]
          simp

/-- C24 (derived component registration). When `load_component` succeeds, the factory
was created, its component type `t` is not zero and was not registered, and the
registry afterwards maps `t` to that factory and its module; when the derived type of
`t` is not zero it maps the derived type and the base type of `t` to the same factory
and module as well; when the derived type is zero only `t` has been added; no other key
has changed. And `load_component` returns false whenever one of the keys it tries to
insert (`t`, and for a non-zero derived type the derived and the base type) is already
registered. -/
theorem derived_registration (fw : Framework) (self self2 : runtime_support)
    (instance_name component lib : String) (isdefault : Bool)
    (h : load_component fw self instance_name component lib isdefault = (self2, true)) :
    (∃ factory d,
        fw.create_factory lib component instance_name = some (factory, d)
          ∧ factory.get_component_type ≠ 0
          ∧ map_find self.components_ factory.get_component_type = none
          ∧ map_find self2.components_ factory.get_component_type = some (some factory, d)
          ∧ (fw.get_derived_type factory.get_component_type ≠ 0 →
              map_find self2.components_ (fw.get_derived_type factory.get_component_type)
                  = some (some factory, d)
                ∧ map_find self2.components_ (fw.get_base_type factory.get_component_type)
                  = some (some factory, d))
          ∧ (fw.get_derived_type factory.get_component_type = 0 →
              self2.components_
                = ordered_insert factory.get_component_type (some factory, d)
                    self.components_)
          ∧ (∀ k, k ≠ factory.get_component_type →
              (fw.get_derived_type factory.get_component_type ≠ 0 →
                k ≠ fw.get_derived_type factory.get_component_type
                  ∧ k ≠ fw.get_base_type factory.get_component_type) →
              map_find self2.components_ k = map_find self.components_ k))
      ∧ ∀ (other : runtime_support) (factory : component_factory_base) (d : dll),
          fw.create_factory lib component instance_name = some (factory, d) →
          (map_find other.components_ factory.get_component_type ≠ none
            ∨ (fw.get_derived_type factory.get_component_type ≠ 0
                ∧ (map_find other.components_
                      (fw.get_derived_type factory.get_component_type) ≠ none
                    ∨ map_find other.components_
                      (fw.get_base_type factory.get_component_type) ≠ none))) →
          (load_component fw other instance_name component lib isdefault).2 = false := by
  have hext : fw.extension lib = fw.shared_lib_extension := by
    by_contra hne
    simp [load_component, hne] at h
  constructor
  · cases hfac : fw.create_factory lib component instance_name with
    | none => simp [load_component, hext, hfac] at h
    | some fd =>
      obtain ⟨factory, d⟩ := fd
      have ht : factory.get_component_type ≠ 0 := by
        intro h0
        simp [load_component, hext, hfac, h0] at h
      refine ⟨factory, d, rfl, ht, ?_⟩
      rw [load_component_cases fw self instance_name component lib isdefault factory d hext
        hfac ht] at h
      cases h0 : map_find self.components_ factory.get_component_type with
      | some w => rw [h0] at h; simp at h
      | none =>
        rw [h0] at h
        dsimp only at h
        have hf1 := map_find_ordered_insert factory.get_component_type (some factory, d)
          self.components_ h0
        by_cases hd : fw.get_derived_type factory.get_component_type = 0
        · rw [if_pos hd] at h
          have h2 : self2 = ⟨self.stopped_, self.terminated_,
              ordered_insert factory.get_component_type (some factory, d)
                self.components_⟩ := (Prod.mk.inj h).1.symm
          subst h2
          refine ⟨rfl, ?_, fun hne => absurd hd hne, fun _ => rfl, ?_⟩
          · simp [hf1]
          · intro k hk _
            simp [hf1, hk]
        · rw [if_neg hd] at h
          cases h1 : map_find (ordered_insert factory.get_component_type (some factory, d)
              self.components_) (fw.get_derived_type factory.get_component_type) with
          | some w => rw [h1] at h; simp at h
          | none =>
            rw [h1] at h
            dsimp only at h
            have hf2 := map_find_ordered_insert
              (fw.get_derived_type factory.get_component_type) (some factory, d) _ h1
            cases h2 : map_find (ordered_insert
                (fw.get_derived_type factory.get_component_type) (some factory, d)
                (ordered_insert factory.get_component_type (some factory, d)
                  self.components_)) (fw.get_base_type factory.get_component_type) with
            | some w => rw [h2] at h; simp at h
            | none =>
              rw [h2] at h
              dsimp only at h
              have hf3 := map_find_ordered_insert
                (fw.get_base_type factory.get_component_type) (some factory, d) _ h2
              have h3 : self2 = ⟨self.stopped_, self.terminated_,
                  ordered_insert (fw.get_base_type factory.get_component_type)
                    (some factory, d)
                    (ordered_insert (fw.get_derived_type factory.get_component_type)
                      (some factory, d)
                      (ordered_insert factory.get_component_type (some factory, d)
                        self.components_))⟩ := (Prod.mk.inj h).1.symm
              subst h3
              have hbd : fw.get_base_type factory.get_component_type
                  ≠ fw.get_derived_type factory.get_component_type := by
                intro he
                rw [hf2, if_pos he] at h2
                exact absurd h2 (by simp)
              have hbt : fw.get_base_type factory.get_component_type
                  ≠ factory.get_component_type := by
                intro he
                rw [hf2, if_neg hbd, hf1, if_pos he] at h2
                exact absurd h2 (by simp)
              have hdt : fw.get_derived_type factory.get_component_type
                  ≠ factory.get_component_type := by
                intro he
                rw [hf1, if_pos he] at h1
                exact absurd h1 (by simp)
              refine ⟨rfl, ?_, fun _ => ⟨?_, ?_⟩, fun he => absurd he hd, ?_⟩
              · simp [hf3, hf2, hf1, hbt.symm, hdt.symm]
              · simp [hf3, hf2, hbd.symm]
              · simp [hf3]
              · intro k hk hk2
                obtain ⟨hkd, hkb⟩ := hk2 hd
                simp [hf3, hf2, hf1, hk, hkd, hkb]
  · intro other factory d hfac hreg
    by_cases ht : factory.get_component_type = 0
    · simp [load_component, hext, hfac, ht]
    rw [load_component_cases fw other instance_name component lib isdefault factory d hext
      hfac ht]
    cases h0 : map_find other.components_ factory.get_component_type with
    | some w => rfl
    | none =>
      dsimp only
      have hf1 := map_find_ordered_insert factory.get_component_type (some factory, d)
        other.components_ h0
      rcases hreg with hreg | ⟨hd, hreg⟩
      · exact absurd h0 hreg
      · rw [if_neg hd]
        cases h1 : map_find (ordered_insert factory.get_component_type (some factory, d)
            other.components_) (fw.get_derived_type factory.get_component_type) with
        | some w => rfl
        | none =>
          dsimp only
          have hf2 := map_find_ordered_insert
            (fw.get_derived_type factory.get_component_type) (some factory, d) _ h1
          cases h2 : map_find (ordered_insert
              (fw.get_derived_type factory.get_component_type) (some factory, d)
              (ordered_insert factory.get_component_type (some factory, d)
                other.components_)) (fw.get_base_type factory.get_component_type) with
          | some w => rfl
          | none =>
            exfalso
            rcases hreg with hreg | hreg
            · rw [hf1] at h1
              split at h1
              · simp at h1
              · exact hreg h1
            · rw [hf2, hf1] at h2
              split at h2
              · simp at h2
              · split at h2
                · simp at h2
                · exact hreg h2

/-- Witness of C24: the factory of the instance `derived` has type 131075, with derived
type 2 and base type 3, and is loaded into an empty registry. -/
theorem derived_registration_witness :
    ∃ factory d,
      (sample_framework true).create_factory "lib.so" "c" "derived" = some (factory, d)
        ∧ factory.get_component_type ≠ 0
        ∧ map_find
            (load_component (sample_framework true) runtime_support.construct "derived" "c"
              "lib.so" false).1.components_ factory.get_component_type
          = some (some factory, d) :=
  (derived_registration (sample_framework true) runtime_support.construct
    (load_component (sample_framework true) runtime_support.construct "derived" "c"
      "lib.so" false).1 "derived" "c" "lib.so" false
    (Prod.ext rfl (by decide))).1.imp
    fun _ h => h.imp fun _ h => ⟨h.1, h.2.1, h.2.2.2.1⟩

/-- Counterexample to C30: type 2 is registered, then the instance `derived` of type
131075 is loaded, whose derived type is 2. `load_component` returns false, yet the entry
for 131075, which was not there before, stays in the registry. -/
theorem failed_load_leaves_entry :
    (load_component (sample_framework true)
        (load_component (sample_framework true) runtime_support.construct "plain" "c"
          "lib.so" false).1 "derived" "c" "lib.so" false).2 = false
      ∧ (map_find
          (load_component (sample_framework true) runtime_support.construct "plain" "c"
            "lib.so" false).1.components_ 131075).isSome = false
      ∧ (map_find
          (load_component (sample_framework true)
            (load_component (sample_framework true) runtime_support.construct "plain" "c"
              "lib.so" false).1 "derived" "c" "lib.so" false).1.components_
          131075).isSome = true := by
  decide

/-- C30 as amended. Whenever `load_component` returns false because the file extension
is wrong, because the module or its factory cannot be created, because the factory
refuses to load with type 0, or because the component type `t` itself is already
registered, the object, and with it the component registry, is exactly what it was
before the call. -/
theorem failed_load_unchanged (fw : Framework) (self : runtime_support)
    (instance_name component lib : String) (isdefault : Bool)
    (h : fw.extension lib ≠ fw.shared_lib_extension
      ∨ fw.create_factory lib component instance_name = none
      ∨ ∃ factory d, fw.create_factory lib component instance_name = some (factory, d)
          ∧ (factory.get_component_type = 0
              ∨ map_find self.components_ factory.get_component_type ≠ none)) :
    load_component fw self instance_name component lib isdefault = (self, false) := by
  by_cases hext : fw.extension lib = fw.shared_lib_extension
  · rcases h with h | h | ⟨factory, d, hfac, h⟩
    · exact absurd hext h
    · simp [load_component, hext, h]
    · by_cases ht : factory.get_component_type = 0
      · simp [load_component, hext, hfac, ht]
      · rw [load_component_cases fw self instance_name component lib isdefault factory d
          hext hfac ht]
        rcases h with h | h
        · exact absurd h ht
        · cases h0 : map_find self.components_ factory.get_component_type with
          | none => exact absurd h0 h
          | some w => rfl
  · simp [load_component, hext]

/-- Witness of C30 as amended: a library whose extension is not `.so`. -/
theorem failed_load_unchanged_witness :
    load_component (sample_framework true) runtime_support.construct "plain" "c" "lib.dll"
        false
      = (runtime_support.construct, false) :=
  failed_load_unchanged (sample_framework true) runtime_support.construct "plain" "c"
    "lib.dll" false (Or.inl (by decide))

/-! ## Loading the configured components -/

theorem disabled_iff (i : util_section) :
    disabled i = true
      ↔ (i.has_entry "enabled" = true
          ∧ (to_lower (i.get_entry "enabled") = "no"
              ∨ to_lower (i.get_entry "enabled") = "false"
              ∨ to_lower (i.get_entry "enabled") = "0")) := by
  unfold disabled
  by_cases h : i.has_entry "enabled" = true
  · simp [h]
  · simp [h]

theorem load_section_calls (fw : Framework) (self : runtime_support) (i : util_section) :
    ((load_section fw self i).2 = [] ↔ disabled i = true)
      ∧ (∀ call ∈ (load_section fw self i).2,
          call.instance_name = i.name ∧ call.component = component_name fw i)
      ∧ (disabled i = false →
          ∃ call ∈ (load_section fw self i).2,
            call.instance_name = i.name ∧ call.component = component_name fw i) := by
  unfold load_section
  by_cases hd : disabled i = true
  · simp [hd]
  · rw [if_neg hd]
    dsimp only
    refine ⟨?_, ?_, ?_⟩
    · split_ifs <;> simp [hd]
    · intro call hc
      split_ifs at hc <;>
        simp only [List.mem_cons, List.mem_singleton, List.not_mem_nil, or_false] at hc
      all_goals first
        | (rcases hc with hc | hc <;> subst hc <;> exact ⟨rfl, rfl⟩)
        | (subst hc; exact ⟨rfl, rfl⟩)
    · intro _
      split_ifs <;> exact ⟨_, List.mem_cons_self _ _, rfl, rfl⟩

theorem load_sections_calls (fw : Framework) :
    ∀ (secs : List util_section) (self : runtime_support),
      (∀ call ∈ (load_sections fw self secs).2,
          ∃ j ∈ secs, disabled j = false ∧ call.instance_name = j.name
            ∧ call.component = component_name fw j)
        ∧ ∀ j ∈ secs, disabled j = false →
            ∃ call ∈ (load_sections fw self secs).2,
              call.instance_name = j.name ∧ call.component = component_name fw j := by
  intro secs
  induction secs with
  | nil => intro self; simp [load_sections]
  | cons i rest ih =>
    intro self
    constructor
    · intro call hc
      simp only [load_sections, List.mem_append] at hc
      rcases hc with hc | hc
      · have hne : (load_section fw self i).2 ≠ [] := List.ne_nil_of_mem hc
        have hd : disabled i = false := by
          cases h : disabled i with
          | false => rfl
          | true => exact absurd ((load_section_calls fw self i).1.mpr h) hne
        obtain ⟨h1, h2⟩ := (load_section_calls fw self i).2.1 call hc
        exact ⟨i, List.mem_cons_self _ _, hd, h1, h2⟩
      · obtain ⟨j, hj, h⟩ := (ih (load_section fw self i).1).1 call hc
        exact ⟨j, List.mem_cons_of_mem _ hj, h⟩
    · intro j hj hd
      simp only [List.mem_cons] at hj
      rcases hj with hj | hj
      · subst hj
        obtain ⟨call, hc, h⟩ := (load_section_calls fw self j).2.2 hd
        exact ⟨call, by simp only [load_sections, List.mem_append]; exact Or.inl hc, h⟩
      · obtain ⟨call, hc, h⟩ := (ih (load_section fw self i).1).2 j hj hd
        exact ⟨call, by simp only [load_sections, List.mem_append]; exact Or.inr hc, h⟩

/-- C25 (enabled flag). `load_components` makes no call of `load_component` for a
section if and only if the section has an `enabled` entry whose lower-cased value is
exactly `no`, `false` or `0`; a section without such an entry, or with any other value,
is loaded. Every call it makes for a section passes the section name as the instance
and, as the component name, the mangled `name` entry when there is one and the mangled
section name otherwise. Over the whole list of sections: every call belongs to a section
that is not disabled, and every section that is not disabled gets a call. -/
theorem enabled_flag (fw : Framework) (self : runtime_support) (i : util_section)
    (secs : List util_section) :
    ((load_section fw self i).2 = []
        ↔ (i.has_entry "enabled" = true
            ∧ (to_lower (i.get_entry "enabled") = "no"
                ∨ to_lower (i.get_entry "enabled") = "false"
                ∨ to_lower (i.get_entry "enabled") = "0")))
      ∧ (∀ call ∈ (load_section fw self i).2,
          call.instance_name = i.name
            ∧ call.component
              = if i.has_entry "name" = true then
                  fw.mangle_component_name (i.get_entry "name")
                else fw.mangle_component_name i.name)
      ∧ (∀ call ∈ (load_components fw self (some secs)).2,
          ∃ j ∈ secs,
            ¬ (j.has_entry "enabled" = true
                ∧ (to_lower (j.get_entry "enabled") = "no"
                    ∨ to_lower (j.get_entry "enabled") = "false"
                    ∨ to_lower (j.get_entry "enabled") = "0"))
              ∧ call.instance_name = j.name
              ∧ call.component
                = if j.has_entry "name" = true then
                    fw.mangle_component_name (j.get_entry "name")
                  else fw.mangle_component_name j.name)
      ∧ (∀ j ∈ secs,
          ¬ (j.has_entry "enabled" = true
              ∧ (to_lower (j.get_entry "enabled") = "no"
                  ∨ to_lower (j.get_entry "enabled") = "false"
                  ∨ to_lower (j.get_entry "enabled") = "0")) →
          ∃ call ∈ (load_components fw self (some secs)).2, call.instance_name = j.name)
      ∧ (load_components fw self none).2 = [] := by
  refine ⟨?_, ?_, ?_, ?_, rfl⟩
  · rw [(load_section_calls fw self i).1, disabled_iff]
  · exact (load_section_calls fw self i).2.1
  · intro call hc
    obtain ⟨j, hj, hd, h1, h2⟩ := (load_sections_calls fw secs self).1 call hc
    refine ⟨j, hj, ?_, h1, h2⟩
    rw [← disabled_iff, hd]
    simp
  · intro j hj hd
    rw [← disabled_iff] at hd
    have hd2 : disabled j = false := by
      cases h : disabled j with
      | false => rfl
      | true => exact absurd h hd
    obtain ⟨call, hc, h1, _⟩ := (load_sections_calls fw secs self).2 j hj hd2
    exact ⟨call, hc, h1⟩

/-! ## The life cycle -/

theorem cleanup_threads_of_self {W : Type} (fw : Framework) (app : Applier W) (w : W)
    (h : app.has_self w = true) :
    cleanup_threads fw app w = result.returned (app.cleanup_terminated (app.yield w)) := by
  simp [cleanup_threads, h]

theorem drain_loop_no_assertion {W : Type} (fw : Framework) (app : Applier W)
    (timeout start_time : Int) (hself : ∀ w, app.has_self w = true) :
    ∀ (fuel : Nat) (w : W),
      (drain_loop fw app timeout start_time fuel w).2.2
        ≠ result.failed failure.assertion_failed := by
  intro fuel
  induction fuel with
  | zero => intro w; simp [drain_loop]
  | succ f ih =>
    intro w
    rw [drain_loop]
    split
    · rw [cleanup_threads_of_self fw app w (hself w)]
      dsimp only
      split
      · simp
      · exact ih _
    · simp

theorem abort_loop_no_assertion {W : Type} (fw : Framework) (app : Applier W)
    (hself : ∀ w, app.has_self w = true) :
    ∀ (fuel : Nat) (w : W),
      (abort_loop fw app fuel w).2.2 ≠ result.failed failure.assertion_failed := by
  intro fuel
  induction fuel with
  | zero => intro w; simp [abort_loop]
  | succ f ih =>
    intro w
    rw [abort_loop]
    split
    · dsimp only
      rw [cleanup_threads_of_self fw app _ (hself _)]
      exact ih _
    · simp

theorem stop_flags {W : Type} (fw : Framework) (app : Applier W) (fuel : Nat)
    (self : runtime_support) (w : W) (timeout : Int) (respond_to : Option Nat) :
    (stop fw app fuel self w timeout respond_to).1.terminated_ = self.terminated_
      ∧ ((stop fw app fuel self w timeout respond_to).2.2.2 = result.returned () →
          (stop fw app fuel self w timeout respond_to).1.stopped_ = true) := by
  unfold stop
  cases hs : self.stopped_ with
  | true => simp [hs]
  | false =>
    simp only [if_true]
    split
    · simp
    · split
      · simp
      · split <;> simp

theorem stop_no_assertion {W : Type} (fw : Framework) (app : Applier W) (fuel : Nat)
    (self : runtime_support) (w : W) (timeout : Int) (respond_to : Option Nat)
    (hself : ∀ w, app.has_self w = true)
    (hinv : self.terminated_ = true → self.stopped_ = true) :
    (stop fw app fuel self w timeout respond_to).2.2.2
      ≠ result.failed failure.assertion_failed := by
  unfold stop
  cases hs : self.stopped_ with
  | true => simp
  | false =>
    have ht : self.terminated_ = false := by
      cases h : self.terminated_ with
      | false => rfl
      | true => rw [hinv h] at hs; exact absurd hs (by decide)
    simp only [if_true, ht, Bool.false_eq_true, and_false, if_false]
    have hd := drain_loop_no_assertion fw app timeout (app.elapsed w) hself fuel w
    cases hdr : (drain_loop fw app timeout (app.elapsed w) fuel w).2.2 with
    | failed f =>
      dsimp only
      intro h
      rw [hdr] at hd
      exact hd (by rw [result.failed.inj h])
    | returned timed_out =>
      dsimp only
      cases timed_out with
      | false => simp
      | true =>
        simp only [if_true]
        have ha := abort_loop_no_assertion fw app hself fuel
          (drain_loop fw app timeout (app.elapsed w) fuel w).1
        cases har : (abort_loop fw app fuel
            (drain_loop fw app timeout (app.elapsed w) fuel w).1).2.2 with
        | failed f =>
          dsimp only
          intro h
          rw [har] at ha
          exact ha (by rw [result.failed.inj h])
        | returned u => simp

theorem lifecycle_keeps_invariant {W : Type} (fw : Framework) (app : Applier W) (fuel : Nat)
    (hself : ∀ w, app.has_self w = true) :
    ∀ (calls : List lifecycle_call) (s : runtime_support × W),
      (s.1.terminated_ = true → s.1.stopped_ = true) →
      stopped_after_stop s.1.stopped_ calls = true →
      lifecycle fw app fuel s calls ≠ result.failed failure.assertion_failed
        ∧ ∀ s2, lifecycle fw app fuel s calls = result.returned s2 →
            (s2.1.terminated_ = true → s2.1.stopped_ = true) := by
  intro calls
  induction calls with
  | nil =>
    intro s hinv _
    refine ⟨by simp [lifecycle], ?_⟩
    intro s2 h
    simp only [lifecycle, result.returned.injEq] at h
    subst h
    exact hinv
  | cons c cs ih =>
    intro s hinv hcalls
    cases c with
    | run =>
      simp only [lifecycle, lifecycle_step]
      exact ih (run s.1, s.2) (by simp [run]) (by simpa [stopped_after_stop, run] using hcalls)
    | stop timeout respond_to =>
      simp only [lifecycle, lifecycle_step]
      have hf := stop_flags fw app fuel s.1 s.2 timeout respond_to
      have hn := stop_no_assertion fw app fuel s.1 s.2 timeout respond_to hself hinv
      cases hr : (stop fw app fuel s.1 s.2 timeout respond_to).2.2.2 with
      | failed f =>
        dsimp only
        rw [hr] at hn
        exact ⟨fun h => hn (by rw [result.failed.inj h]), by simp⟩
      | returned u =>
        dsimp only
        have hst := hf.2 (by rw [hr])
        apply ih
        · intro _
          exact hst
        · rw [hst]
          simpa [stopped_after_stop] using hcalls
    | stopped =>
      simp only [lifecycle, lifecycle_step]
      simp only [stopped_after_stop, Bool.and_eq_true] at hcalls
      apply ih
      · intro _
        simp only [stopped]
        split <;> exact hcalls.1
      · have : (stopped s.1).1.stopped_ = s.1.stopped_ := by
          simp only [stopped]
          split <;> rfl
        rw [this]
        exact hcalls.2

/-- Counterexample to C29: `stopped` is called on the freshly constructed object. It sets
`terminated_` although `stopped_` is false, and the `stop` that follows fails its
assertion `!terminated_`. -/
theorem stopped_before_stop_breaks_invariant :
    (stopped runtime_support.construct).1.terminated_ = true
      ∧ (stopped runtime_support.construct).1.stopped_ = false
      ∧ lifecycle (sample_framework true) sample_applier 64
          (runtime_support.construct, ((1 : Int), (0 : Int)))
          [lifecycle_call.stopped, lifecycle_call.stop (-1) none]
        = result.failed failure.assertion_failed :=
  ⟨rfl, rfl, rfl⟩

/-- C29 as amended. In every state reachable from construction by a sequence of `run`,
`stop` and `stopped` calls in which `stopped` is only called while `stopped_` is set
(that is after a `stop`, with no `run` in between), `terminated_` implies `stopped_`, so
the assertion `!terminated_` at the start of the body of `stop` never fails; `run`
resets both flags to false, and `stopped` sets `terminated_` at most once: on an object
that is terminated it does nothing. -/
theorem lifecycle_invariant {W : Type} (fw : Framework) (app : Applier W) (fuel : Nat)
    (w : W) (calls : List lifecycle_call) (hself : ∀ w, app.has_self w = true)
    (hcalls : stopped_after_stop false calls = true) :
    lifecycle fw app fuel (runtime_support.construct, w) calls
        ≠ result.failed failure.assertion_failed
      ∧ (∀ s, lifecycle fw app fuel (runtime_support.construct, w) calls
            = result.returned s →
          (s.1.terminated_ = true → s.1.stopped_ = true))
      ∧ (∀ self : runtime_support,
          (run self).stopped_ = false ∧ (run self).terminated_ = false)
      ∧ (∀ self : runtime_support, stopped (stopped self).1 = ((stopped self).1, []))
      ∧ (∀ self : runtime_support, self.terminated_ = true → stopped self = (self, [])) := by
  have h := lifecycle_keeps_invariant fw app fuel hself calls (runtime_support.construct, w)
    (by simp [runtime_support.construct]) hcalls
  refine ⟨h.1, h.2, fun _ => ⟨rfl, rfl⟩, ?_, ?_⟩
  · intro self
    cases ht : self.terminated_ with
    | false => simp [stopped, ht]
    | true => simp [stopped, ht]
  · intro self ht
    simp [stopped, ht]

/-- Witness of C29 as amended: run, stop, stopped, a second stop, run again, stop. -/
theorem lifecycle_invariant_witness :
    lifecycle (sample_framework true) sample_applier 64
        (runtime_support.construct, ((3 : Int), (0 : Int)))
        [lifecycle_call.run, lifecycle_call.stop (-1) none, lifecycle_call.stopped,
          lifecycle_call.stop 5 (some 0), lifecycle_call.run, lifecycle_call.stop 1 none]
      ≠ result.failed failure.assertion_failed :=
  (lifecycle_invariant (sample_framework true) sample_applier 64 ((3 : Int), (0 : Int))
    [lifecycle_call.run, lifecycle_call.stop (-1) none, lifecycle_call.stopped,
      lifecycle_call.stop 5 (some 0), lifecycle_call.run, lifecycle_call.stop 1 none]
    (fun _ => rfl) (by decide)).1

/-! ## Shutdown -/

theorem cleanup_threads_returned {W : Type} (fw : Framework) (app : Applier W) (w w1 : W)
    (h : cleanup_threads fw app w = result.returned w1) :
    w1 = app.cleanup_terminated (app.yield w) := by
  unfold cleanup_threads at h
  split_ifs at h
  exact (result.returned.inj h).symm

theorem drain_loop_events {W : Type} (fw : Framework) (app : Applier W)
    (timeout start_time : Int) :
    ∀ (fuel : Nat) (w : W),
      ∀ e ∈ (drain_loop fw app timeout start_time fuel w).2.1,
        e = stop_event.cleanup_threads := by
  intro fuel
  induction fuel with
  | zero => intro w e he; simp [drain_loop] at he
  | succ f ih =>
    intro w e he
    rw [drain_loop] at he
    split_ifs at he with hc
    · cases hcl : cleanup_threads fw app w with
      | failed f0 =>
        rw [hcl] at he
        simp at he
      | returned w1 =>
        rw [hcl] at he
        dsimp only at he
        split_ifs at he with ht
        · simpa using he
        · rcases List.mem_cons.1 he with h | h
          · exact h
          · exact ih w1 e h
    · simp at he

theorem drain_loop_timed_out {W : Type} (fw : Framework) (app : Applier W)
    (timeout start_time : Int) :
    ∀ (fuel : Nat) (w : W),
      (drain_loop fw app timeout start_time fuel w).2.2 = result.returned true →
      timeout ≠ -1 ∧ ∃ w_prev : W, app.get_thread_count w_prev > 1
        ∧ timeout < app.elapsed (app.cleanup_terminated (app.yield w_prev)) - start_time := by
  intro fuel
  induction fuel with
  | zero => intro w h; simp [drain_loop] at h
  | succ f ih =>
    intro w h
    rw [drain_loop] at h
    split_ifs at h with hc
    · cases hcl : cleanup_threads fw app w with
      | failed f0 =>
        rw [hcl] at h
        simp at h
      | returned w1 =>
        rw [hcl] at h
        dsimp only at h
        have hw1 := cleanup_threads_returned fw app w w1 hcl
        split_ifs at h with ht
        · refine ⟨ht.1, w, hc, ?_⟩
          rw [← hw1]
          exact ht.2
        · exact ih w1 h
    · simp at h

theorem respond_no_abort {W : Type} (app : Applier W) (respond_to : Option Nat) :
    stop_event.abort_all_suspended_threads ∉ respond app respond_to := by
  cases respond_to with
  | none => simp [respond]
  | some id =>
    simp only [respond]
    split <;> simp

theorem stop_trace_cases {W : Type} (fw : Framework) (app : Applier W) (fuel : Nat)
    (self : runtime_support) (w : W) (timeout : Int) (respond_to : Option Nat) :
    (stop fw app fuel self w timeout respond_to).2.2.1 = []
      ∨ (∃ after : List stop_event,
          (stop fw app fuel self w timeout respond_to).2.2.1
            = (drain_loop fw app timeout (app.elapsed w) fuel w).2.1 ++ after
          ∧ ((drain_loop fw app timeout (app.elapsed w) fuel w).2.2 = result.returned true
              ∨ stop_event.abort_all_suspended_threads ∉ after)) := by
  unfold stop
  cases hs : self.stopped_ with
  | true => left; simp
  | false =>
    simp only [if_true]
    split
    · left; rfl
    · right
      cases hdr : (drain_loop fw app timeout (app.elapsed w) fuel w).2.2 with
      | failed f =>
        exact ⟨[], by simp, Or.inr (by simp)⟩
      | returned timed_out =>
        cases timed_out with
        | true =>
          dsimp only
          simp only [if_true]
          split
          · exact ⟨_, rfl, Or.inl trivial⟩
          · exact ⟨_, by simp only [List.append_assoc]; rfl, Or.inl trivial⟩
        | false =>
          refine ⟨respond app respond_to
            ++ [stop_event.notify_wait_condition, stop_event.wait_stop_condition],
            by simp, Or.inr ?_⟩
          have := respond_no_abort app respond_to
          simp [this]

/-- C23. In `runtime_support::stop`, `abort_all_suspended_threads` is called only after
the drain loop has timed out: the drain loop then ended with `timed_out` set, which needs
`timeout != -1` and an iteration entered with more than one thread after whose clean-up
the time elapsed since the start exceeds `timeout`; the events of the drain loop (all of
them `cleanup_threads`) come first in the trace. With `timeout = -1` nothing is aborted,
and `stop` on an instance whose `stopped_` is set changes neither the object nor the
thread manager and does nothing at all. -/
theorem shutdown_drain {W : Type} (fw : Framework) (app : Applier W) (fuel : Nat)
    (self : runtime_support) (w : W) (timeout : Int) (respond_to : Option Nat) :
    (stop_event.abort_all_suspended_threads
          ∈ (stop fw app fuel self w timeout respond_to).2.2.1 →
        (drain_loop fw app timeout (app.elapsed w) fuel w).2.2 = result.returned true
          ∧ timeout ≠ -1
          ∧ (∃ w_prev : W, app.get_thread_count w_prev > 1
              ∧ timeout
                < app.elapsed (app.cleanup_terminated (app.yield w_prev)) - app.elapsed w)
          ∧ ∃ after : List stop_event,
              (stop fw app fuel self w timeout respond_to).2.2.1
                = (drain_loop fw app timeout (app.elapsed w) fuel w).2.1 ++ after
              ∧ ∀ e ∈ (drain_loop fw app timeout (app.elapsed w) fuel w).2.1,
                  e = stop_event.cleanup_threads)
      ∧ (timeout = -1 →
          stop_event.abort_all_suspended_threads
            ∉ (stop fw app fuel self w timeout respond_to).2.2.1)
      ∧ (self.stopped_ = true →
          stop fw app fuel self w timeout respond_to = (self, w, [], result.returned ())) := by
  have key : stop_event.abort_all_suspended_threads
        ∈ (stop fw app fuel self w timeout respond_to).2.2.1 →
      (drain_loop fw app timeout (app.elapsed w) fuel w).2.2 = result.returned true
        ∧ ∃ after : List stop_event,
            (stop fw app fuel self w timeout respond_to).2.2.1
              = (drain_loop fw app timeout (app.elapsed w) fuel w).2.1 ++ after := by
    intro hmem
    rcases stop_trace_cases fw app fuel self w timeout respond_to with h | ⟨after, h, hor⟩
    · rw [h] at hmem
      simp at hmem
    · refine ⟨?_, after, h⟩
      rcases hor with h1 | h1
      · exact h1
      · rw [h] at hmem
        rcases List.mem_append.1 hmem with h2 | h2
        · have := drain_loop_events fw app timeout (app.elapsed w) fuel w _ h2
          cases this
        · exact absurd h2 h1
  refine ⟨?_, ?_, ?_⟩
  · intro hmem
    have hk := key hmem
    have ht := drain_loop_timed_out fw app timeout (app.elapsed w) fuel w hk.1
    obtain ⟨after, hafter⟩ := hk.2
    exact ⟨hk.1, ht.1, ht.2, after, hafter,
      drain_loop_events fw app timeout (app.elapsed w) fuel w⟩
  · intro hto hmem
    exact (drain_loop_timed_out fw app timeout (app.elapsed w) fuel w (key hmem).1).1 hto
  · intro hs
    simp [stop, hs]

/-- A run of `stop` in which the drain loop times out: three threads, one of which ends
per clean-up, a timeout of zero ticks. The abort phase follows the single clean-up of
the drain loop. -/
theorem stop_timed_out_example :
    (stop (sample_framework true) sample_applier 64 runtime_support.construct
        ((3 : Int), (0 : Int)) 0 (some 0)).2.2.1
      = [stop_event.cleanup_threads, stop_event.abort_all_suspended_threads,
          stop_event.cleanup_threads, stop_event.apply_l 0,
          stop_event.notify_wait_condition, stop_event.wait_stop_condition] := by
  decide

end server

end components

end hpx
